import Mathlib

/-!
# cgns-run: namespace / cgroup inspection, diff and join

A shallow embedding of `src/cgns-run.c`.

* C strings are lists of characters (`CStr`); a buffer read as a C string ends
  at its first NUL byte (`cstr`).
* `snprintf (buf, size, ...)` keeps the first `size - 1` bytes of the formatted
  text.
* The kernel interfaces (`readlink`, `fopen`, `open`, `setns`, `write`) are
  oracles, fields of `Sys` and `JoinEnv`.
* A `process_info_t` local that is declared without an initialiser starts with
  whatever the stack holds; that initial content is an explicit argument.
* `printf` output is kept as structured report lines, one constructor per
  format string.
-/

namespace CgnsRun

/-! ## C strings and stdio -/

/-- A C string or a byte buffer. -/
abbrev CStr := List Char

/-- The NUL byte. -/
def NUL : Char := Char.ofNat 0

/-- The newline byte. -/
def NL : Char := Char.ofNat 10

/-- The bytes of a buffer seen as a C string: everything before the first NUL. -/
def cstr (buf : List Char) : CStr := buf.takeWhile (fun c => c != NUL)

/-- Result of `snprintf (buf, size, ...)` for the formatted text `s`: at most
`size - 1` bytes are stored. -/
def snprintf (size : Nat) (s : CStr) : CStr := s.take (size - 1)

/-- Conversion `%d`. -/
def fmt_d (n : Int) : CStr := (toString n).toList

/-- The reading part of `fgets`: up to `n` bytes, stopping after a newline.
Returns the bytes read and the rest of the stream. -/
def fgets_read : Nat → List Char → List Char × List Char
  | 0, s => ([], s)
  | _ + 1, [] => ([], [])
  | n + 1, c :: s =>
    if c = NL then ([c], s)
    else ((c :: (fgets_read n s).1), (fgets_read n s).2)

/-- The call `fgets (line, size, stream)`: `none` (NULL) at end of file, else the bytes
stored in `line` and the rest of the stream. -/
def fgets (size : Nat) (stream : List Char) : Option (List Char × List Char) :=
  match stream with
  | [] => none
  | _ :: _ => some (fgets_read (size - 1) stream)

/-- The statement `line[strcspn(line, "\n")] = 0`, then `line` read as a C string. -/
def cut_at_newline (line : List Char) : CStr :=
  (cstr line).takeWhile (fun c => c != NL)

/-- The constant `ENOENT`. -/
def ENOENT : Nat := 2

/-! ## Data model -/

/-- The table `namespaces[]`, without its NULL terminator. -/
def namespaces : List String := ["mnt", "uts", "ipc", "pid", "net", "user", "cgroup"]

/-- The struct `process_info_t`: `namespaces[7][256]`, `cgroups[64][512]`, `num_cgroups`.
Each slot is held as the C string it contains. -/
structure process_info_t where
  namespaces : Nat → CStr
  cgroups : Nat → CStr
  num_cgroups : Int

/-- Assignment to one slot of an array. -/
def set_slot (a : Nat → CStr) (k : Nat) (v : CStr) : Nat → CStr :=
  fun i => if i = k then v else a i

/-- The parts of the system that the inspectors read. -/
structure Sys where
  /-- The call `readlink (path, ...)`: the errno of a failure, or the link target. -/
  readlink : CStr → Except Nat (List Char)
  /-- The call `fopen (path, "r")`: the errno of a failure, or the content of the file. -/
  fopen : CStr → Except Nat (List Char)
  /-- The text of `strerror (errno)`. -/
  strerror : Nat → CStr

/-! ## Inspectors -/

/-- The text `"/proc/%d/ns/%s"` as stored in a 256-byte buffer. -/
def proc_ns_path (pid : Int) (ns : String) : CStr :=
  snprintf 256 ("/proc/".toList ++ fmt_d pid ++ "/ns/".toList ++ ns.toList)

/-- One iteration of the loop of `get_namespace_info` for `namespaces[i] = ns`. -/
def get_namespace_info_step (sys : Sys) (pid : Int) (i : Nat) (ns : String)
    (info : process_info_t) : process_info_t :=
  let ns_path := proc_ns_path pid ns
  match sys.readlink ns_path with
  | .error errno =>
    if errno = ENOENT then
      { info with namespaces := set_slot info.namespaces i "not available".toList }
    else
      let msg := snprintf 256 ("error reading (".toList ++ sys.strerror errno ++ ")".toList)
      { info with namespaces := set_slot info.namespaces i msg }
  | .ok link_target =>
    { info with namespaces := set_slot info.namespaces i (cstr (link_target.take 255)) }

/-- The loop of `get_namespace_info` over the remaining entries of `namespaces[]`. -/
def get_namespace_info_loop (sys : Sys) (pid : Int) :
    List String → Nat → process_info_t → process_info_t
  | [], _, info => info
  | ns :: rest, i, info =>
    get_namespace_info_loop sys pid rest (i + 1) (get_namespace_info_step sys pid i ns info)

/-- The function `get_namespace_info`: return code and the updated `*info`. -/
def get_namespace_info (sys : Sys) (pid : Int) (info : process_info_t) :
    Int × process_info_t :=
  (0, get_namespace_info_loop sys pid namespaces 0 info)

/-- The `while (fgets (...) && info->num_cgroups < 64)` loop of `get_cgroup_info`.
The first argument bounds the number of iterations. -/
def get_cgroup_info_loop : Nat → List Char → process_info_t → process_info_t
  | 0, _, info => info
  | fuel + 1, stream, info =>
    match fgets 512 stream with
    | none => info
    | some (line, rest) =>
      if info.num_cgroups < 64 then
        get_cgroup_info_loop fuel rest
          { info with
            cgroups := set_slot info.cgroups info.num_cgroups.toNat (cut_at_newline line),
            num_cgroups := info.num_cgroups + 1 }
      else info

/-- The text `"/proc/%d/cgroup"` as stored in a 512-byte buffer. -/
def proc_cgroup_path (pid : Int) : CStr :=
  snprintf 512 ("/proc/".toList ++ fmt_d pid ++ "/cgroup".toList)

/-- The function `get_cgroup_info`: return code and the updated `*info`. Every `fgets` that
succeeds consumes a byte, so the length of the file bounds the iterations. -/
def get_cgroup_info (sys : Sys) (pid : Int) (info : process_info_t) :
    Int × process_info_t :=
  let cgroup_path := proc_cgroup_path pid
  match sys.fopen cgroup_path with
  | .error _ => (-1, { info with num_cgroups := 0 })
  | .ok content =>
    (0, get_cgroup_info_loop (content.length + 1) content { info with num_cgroups := 0 })

/-! ## Context differ -/

/-- One namespace entry of the report: `"  %s: SAME"`, or `"  %s: DIFFERENT"` with its
two `"    PID %d: %s"` lines. -/
inductive NsLine where
  | same (name : String)
  | different (name : String) (pid1 : Int) (v1 : CStr) (pid2 : Int) (v2 : CStr)
  deriving DecidableEq

/-- One cgroup entry of the report: `"  [%d]: SAME"`, `"  [%d]: DIFFERENT"` with its two
`"    PID %d: %s"` lines, or `"  [%d]: Only in PID %d: %s"`. -/
inductive CgLine where
  | same (i : Nat)
  | different (i : Nat) (pid1 : Int) (r1 : CStr) (pid2 : Int) (r2 : CStr)
  | only_in (i : Nat) (pid : Int) (r : CStr)
  deriving DecidableEq

/-- What `diff_processes` prints. -/
structure DiffReport where
  /-- Lines written to stderr. -/
  stderr : List String
  /-- False when the function returned before printing the comparison. -/
  printed : Bool
  /-- The entries under `NAMESPACES:`. -/
  ns_lines : List NsLine
  /-- The line `"  Different number of cgroups (%d vs %d)"`, when printed. -/
  count_note : Option (Int × Int)
  /-- The entries under `CGROUPS:`. -/
  cg_lines : List CgLine
  /-- The text after `"  Namespaces: "` in the summary. -/
  ns_summary : String
  /-- The text after `"  Cgroups: "` in the summary. -/
  cg_summary : String
  deriving DecidableEq

/-- The namespace loop of `diff_processes` over the remaining entries of `namespaces[]`,
from index `i` with the current `ns_same`: the lines printed and the final `ns_same`. -/
def diff_ns_loop (info1 info2 : process_info_t) (pid1 pid2 : Int) :
    List String → Nat → Bool → List NsLine × Bool
  | [], _, ns_same => ([], ns_same)
  | ns :: rest, i, ns_same =>
    if info1.namespaces i = info2.namespaces i then
      ((NsLine.same ns :: (diff_ns_loop info1 info2 pid1 pid2 rest (i + 1) ns_same).1),
        (diff_ns_loop info1 info2 pid1 pid2 rest (i + 1) ns_same).2)
    else
      ((NsLine.different ns pid1 (info1.namespaces i) pid2 (info2.namespaces i) ::
          (diff_ns_loop info1 info2 pid1 pid2 rest (i + 1) false).1),
        (diff_ns_loop info1 info2 pid1 pid2 rest (i + 1) false).2)

/-- The cgroup loop `for (i = ...; i < max_cgroups; i++)` of `diff_processes`: the first
argument is the number of iterations left, `max_cgroups - i`. Returns the lines printed
and the final `cg_same`. -/
def diff_cg_loop (info1 info2 : process_info_t) (pid1 pid2 : Int) :
    Nat → Nat → Bool → List CgLine × Bool
  | 0, _, cg_same => ([], cg_same)
  | n + 1, i, cg_same =>
    if (i : Int) < info1.num_cgroups ∧ (i : Int) < info2.num_cgroups then
      if info1.cgroups i = info2.cgroups i then
        ((CgLine.same i :: (diff_cg_loop info1 info2 pid1 pid2 n (i + 1) cg_same).1),
          (diff_cg_loop info1 info2 pid1 pid2 n (i + 1) cg_same).2)
      else
        ((CgLine.different i pid1 (info1.cgroups i) pid2 (info2.cgroups i) ::
            (diff_cg_loop info1 info2 pid1 pid2 n (i + 1) false).1),
          (diff_cg_loop info1 info2 pid1 pid2 n (i + 1) false).2)
    else if (i : Int) < info1.num_cgroups then
      ((CgLine.only_in i pid1 (info1.cgroups i) ::
          (diff_cg_loop info1 info2 pid1 pid2 n (i + 1) false).1),
        (diff_cg_loop info1 info2 pid1 pid2 n (i + 1) false).2)
    else
      ((CgLine.only_in i pid2 (info2.cgroups i) ::
          (diff_cg_loop info1 info2 pid1 pid2 n (i + 1) false).1),
        (diff_cg_loop info1 info2 pid1 pid2 n (i + 1) false).2)

/-- The text of a summary line. -/
def summary_text (all_same : Bool) : String :=
  if all_same then "ALL SAME" else "SOME DIFFERENT"

/-- The printing part of `diff_processes`, from `"Comparing processes"` to the summary,
on the two structs as they are after the retrieval calls. -/
def diff_print (info1 info2 : process_info_t) (pid1 pid2 : Int) (stderr : List String) :
    DiffReport :=
  let ns := diff_ns_loop info1 info2 pid1 pid2 namespaces 0 true
  let differ : Bool := decide (info1.num_cgroups ≠ info2.num_cgroups)
  let max_cgroups : Int :=
    if info1.num_cgroups > info2.num_cgroups then info1.num_cgroups else info2.num_cgroups
  let cg := diff_cg_loop info1 info2 pid1 pid2 max_cgroups.toNat 0 (!differ)
  { stderr := stderr
    printed := true
    ns_lines := ns.1
    count_note := if differ then some (info1.num_cgroups, info2.num_cgroups) else none
    cg_lines := cg.1
    ns_summary := summary_text ns.2
    cg_summary := summary_text cg.2 }

/-- The report of a run that stopped before printing. -/
def diff_aborted (stderr : List String) : DiffReport :=
  { stderr := stderr, printed := false, ns_lines := [], count_note := none, cg_lines := [],
    ns_summary := "", cg_summary := "" }

/-- The two structs of `diff_processes` after its retrieval calls, with the lines written
to stderr; `none` when the function returns early. `stack1` and `stack2` are the contents
of the locals `info1` and `info2` at entry. In `f (a) != 0 || f (b) != 0` the second call is
made only when the first returned 0. -/
def diff_retrieve (sys : Sys) (pid1 pid2 : Int) (stack1 stack2 : process_info_t) :
    Option (process_info_t × process_info_t × List String) :=
  let n1 := get_namespace_info sys pid1 stack1
  if n1.1 ≠ 0 then none
  else
    let n2 := get_namespace_info sys pid2 stack2
    if n2.1 ≠ 0 then none
    else
      let c1 := get_cgroup_info sys pid1 n1.2
      if c1.1 ≠ 0 then
        some (c1.2, n2.2, ["Warning: Failed to get cgroup info for one or both processes\n"])
      else
        let c2 := get_cgroup_info sys pid2 n2.2
        if c2.1 ≠ 0 then
          some (c1.2, c2.2, ["Warning: Failed to get cgroup info for one or both processes\n"])
        else some (c1.2, c2.2, [])

/-- The function `diff_processes`. -/
def diff_processes (sys : Sys) (pid1 pid2 : Int) (stack1 stack2 : process_info_t) :
    DiffReport :=
  match diff_retrieve sys pid1 pid2 stack1 stack2 with
  | none => diff_aborted ["Failed to get namespace info\n"]
  | some (info1, info2, stderr) => diff_print info1 info2 pid1 pid2 stderr

/-! ## Joiners -/

/-- The system calls made by the joiners, and the lines they write to stderr. -/
inductive Event where
  | open (path : CStr)
  | setns (path : CStr)
  | write (path : CStr) (bytes : CStr)
  | close (path : CStr)
  | stderr (msg : CStr)
  deriving DecidableEq

/-- The system as the joiners meet it. The calls in a loop take the index of the
iteration that makes them, since a join changes what later calls see. -/
structure JoinEnv where
  /-- The call `open (path, flags)` in iteration `i`: the errno of a failure, or success. -/
  sys_open : Nat → CStr → Except Nat Unit
  /-- The call `setns (fd, 0)` in iteration `i`, on the descriptor of `path`. -/
  sys_setns : Nat → CStr → Except Nat Unit
  /-- The call `write (fd, bytes, len)` in iteration `i`: false when it returns -1. -/
  sys_write : Nat → CStr → CStr → Bool
  /-- The call `fopen (path, "r")`: the errno of a failure, or the content of the file. -/
  fopen : CStr → Except Nat (List Char)
  /-- The text of `strerror (errno)`. -/
  strerror : Nat → CStr
  /-- The value of `getpid ()`. -/
  getpid : Nat
  /-- A `pid_t` is a 32-bit signed integer. -/
  getpid_lt : getpid < 2147483648

/-- The loop of `join_namespaces` over the remaining entries of `namespaces[]`, from
index `i`: the return code and the events in order. -/
def join_namespaces_loop (env : JoinEnv) (target_pid : Int) :
    List String → Nat → Int × List Event
  | [], _ => (0, [])
  | ns :: rest, i =>
    let ns_path := proc_ns_path target_pid ns
    match env.sys_open i ns_path with
    | .error errno =>
      if errno = ENOENT then
        ((join_namespaces_loop env target_pid rest (i + 1)).1,
          Event.open ns_path :: (join_namespaces_loop env target_pid rest (i + 1)).2)
      else
        (-1, [Event.open ns_path,
          Event.stderr ("Failed to open ".toList ++ ns_path ++ ": ".toList ++
            env.strerror errno ++ [NL])])
    | .ok _ =>
      match env.sys_setns i ns_path with
      | .error errno =>
        if ns = "user" then
          ((join_namespaces_loop env target_pid rest (i + 1)).1,
            [Event.open ns_path, Event.setns ns_path,
              Event.stderr ("Warning: Failed to join user namespace: ".toList ++
                env.strerror errno ++ [NL]),
              Event.close ns_path] ++ (join_namespaces_loop env target_pid rest (i + 1)).2)
        else
          (-1, [Event.open ns_path, Event.setns ns_path,
            Event.stderr ("Failed to join namespace ".toList ++ ns.toList ++ ": ".toList ++
              env.strerror errno ++ [NL]),
            Event.close ns_path])
      | .ok _ =>
        ((join_namespaces_loop env target_pid rest (i + 1)).1,
          [Event.open ns_path, Event.setns ns_path, Event.close ns_path] ++
            (join_namespaces_loop env target_pid rest (i + 1)).2)

/-- The function `join_namespaces`. -/
def join_namespaces (env : JoinEnv) (target_pid : Int) : Int × List Event :=
  join_namespaces_loop env target_pid namespaces 0

/-- The call `p = strchr (s, c)` followed by `*p = 0`: `none` when `c` does not occur in `s`,
else the string before the first `c` and the string at `p + 1`. -/
def strchr_split (c : Char) : CStr → Option (CStr × CStr)
  | [] => none
  | x :: xs =>
    if x = c then some ([], xs)
    else
      match strchr_split c xs with
      | none => none
      | some (before, after) => some (x :: before, after)

/-- The path that `join_cgroups` computes in `cgroup_path` for one newline-stripped line;
`none` when the line is skipped by a `continue`. -/
def cgroup_procs_path (line : CStr) : Option CStr :=
  match strchr_split ':' line with
  | none => none
  | some (_, after1) =>
    match strchr_split ':' after1 with
    | none => none
    | some (subsystems, cgroup_name) =>
      if subsystems.length = 0 then
        some (snprintf 512 ("/sys/fs/cgroup".toList ++ cgroup_name ++ "/cgroup.procs".toList))
      else
        some (snprintf 512 ("/sys/fs/cgroup/".toList ++ subsystems ++ cgroup_name ++
          "/cgroup.procs".toList))

/-- The events of one iteration of the loop of `join_cgroups`, after `fgets` stored `line`. -/
def join_cgroups_body (env : JoinEnv) (my_pid_str : CStr) (i : Nat) (line : List Char) :
    List Event :=
  match cgroup_procs_path (cut_at_newline line) with
  | none => []
  | some cgroup_path =>
    match env.sys_open i cgroup_path with
    | .error _ => [Event.open cgroup_path]
    | .ok _ =>
      if env.sys_write i cgroup_path my_pid_str then
        [Event.open cgroup_path, Event.write cgroup_path my_pid_str, Event.close cgroup_path]
      else
        [Event.open cgroup_path, Event.write cgroup_path my_pid_str, Event.close cgroup_path]

/-- The `while (fgets (...))` loop of `join_cgroups` from iteration `i`. The first argument
bounds the number of iterations. -/
def join_cgroups_loop (env : JoinEnv) (my_pid_str : CStr) :
    Nat → Nat → List Char → List Event
  | 0, _, _ => []
  | fuel + 1, i, stream =>
    match fgets 512 stream with
    | none => []
    | some (line, rest) =>
      join_cgroups_body env my_pid_str i line ++
        join_cgroups_loop env my_pid_str fuel (i + 1) rest

/-- The function `join_cgroups`. Every `fgets` that succeeds consumes a byte, so the length
of the file bounds the iterations. -/
def join_cgroups (env : JoinEnv) (target_pid : Int) : Int × List Event :=
  let my_pid_str := snprintf 32 (fmt_d (env.getpid : Int) ++ [NL])
  let target_cgroup_path := proc_cgroup_path target_pid
  match env.fopen target_cgroup_path with
  | .error errno =>
    (-1, [Event.stderr ("Failed to open ".toList ++ target_cgroup_path ++ ": ".toList ++
      env.strerror errno ++ [NL])])
  | .ok content => (0, join_cgroups_loop env my_pid_str (content.length + 1) 0 content)

/-! ## Inputs used in the statements -/

/-- A text file made of the given lines, each ended by a newline. -/
def file_of_lines : List CStr → List Char
  | [] => []
  | l :: ls => l ++ NL :: file_of_lines ls

/-- A line that `fgets` with a 512-byte buffer reads whole and that is a C string: at
most 510 bytes before its newline, no newline and no NUL inside. -/
def fits_line (l : CStr) : Prop := l.length ≤ 510 ∧ NL ∉ l ∧ NUL ∉ l

instance : DecidablePred fits_line := fun l => by
  unfold fits_line
  infer_instance

/-- A system in which every namespace link is missing and every cgroup membership file
has the given content. -/
def sys_with_cgroup_file (content : List Char) : Sys where
  readlink := fun _ => .error ENOENT
  fopen := fun _ => .ok content
  strerror := fun _ => []

/-- A struct whose slots are all empty and whose count is 0. -/
def zero_info : process_info_t := ⟨fun _ => [], fun _ => [], 0⟩

/-- A line of 511 bytes before its newline. -/
def long_line : CStr := List.replicate 511 'a'

/-- The verdict of the spec's positional comparison at index `i`, for the records `a`
(`m` of them, of process `pid1`) and `b` (`n` of them, of process `pid2`): SAME or
DIFFERENT below both counts, else only in the process that still has a record. -/
def positional_verdict (a b : Nat → CStr) (m n : Nat) (pid1 pid2 : Int) (i : Nat) : CgLine :=
  if i < min m n then
    if a i = b i then CgLine.same i else CgLine.different i pid1 (a i) pid2 (b i)
  else if i < m then CgLine.only_in i pid1 (a i)
  else CgLine.only_in i pid2 (b i)

/-- The verdict of the spec's namespace comparison for kind number `k`, named `ns`. -/
def ns_verdict (a b : Nat → CStr) (pid1 pid2 : Int) (k : Nat) (ns : String) : NsLine :=
  if a k = b k then NsLine.same ns else NsLine.different ns pid1 (a k) pid2 (b k)

/-- Whether a namespace entry of the report says DIFFERENT. -/
def NsLine.is_different : NsLine → Bool
  | NsLine.same _ => false
  | NsLine.different _ _ _ _ _ => true

/-- A struct that holds the given records in its first slots, with their count. -/
def info_of_records (recs : List CStr) : process_info_t :=
  ⟨fun _ => [], fun i => recs.getD i [], recs.length⟩

/-- A system with two processes: the membership file of process 1 cannot be opened
(errno 13), that of process 2 holds the single line `0::/b`; every namespace link
resolves to the same token. -/
def sys_first_unreadable : Sys where
  readlink := fun _ => .ok "ns:[4026531840]".toList
  fopen := fun p =>
    if p = "/proc/1/cgroup".toList then .error 13 else .ok "0::/b\n".toList
  strerror := fun _ => "Permission denied".toList

/-- Stack content whose `num_cgroups` field holds 1 and whose first record slot holds
the text `stale`. -/
def stale_info : process_info_t :=
  ⟨fun _ => [], fun i => if i = 0 then "stale".toList else [], 1⟩

/-- The path of an `open` event. -/
def Event.open_path : Event → Option CStr
  | Event.open p => some p
  | _ => none

/-- Kind number `i`, named `ns`, does not stop `join_namespaces`: its link does not
exist, or it opens and either the join succeeds or the kind is `user`. -/
def kind_passes (env : JoinEnv) (target_pid : Int) (i : Nat) (ns : String) : Prop :=
  env.sys_open i (proc_ns_path target_pid ns) = .error ENOENT ∨
    (env.sys_open i (proc_ns_path target_pid ns) = .ok () ∧
      (env.sys_setns i (proc_ns_path target_pid ns) = .ok () ∨ ns = "user"))

/-- Kind number `i`, named `ns`, is absent or joins successfully. -/
def kind_absent_or_joined (env : JoinEnv) (target_pid : Int) (i : Nat) (ns : String) : Prop :=
  env.sys_open i (proc_ns_path target_pid ns) = .error ENOENT ∨
    (env.sys_open i (proc_ns_path target_pid ns) = .ok () ∧
      env.sys_setns i (proc_ns_path target_pid ns) = .ok ())

/-- The line `"Failed to join namespace %s: %s\n"`. -/
def join_failure_message (env : JoinEnv) (ns : String) (errno : Nat) : CStr :=
  "Failed to join namespace ".toList ++ ns.toList ++ ": ".toList ++ env.strerror errno ++ [NL]

/-- The line `"Warning: Failed to join user namespace: %s\n"`. -/
def user_warning_message (env : JoinEnv) (errno : Nat) : CStr :=
  "Warning: Failed to join user namespace: ".toList ++ env.strerror errno ++ [NL]

/-- An environment in which every link opens and every join succeeds except that of
kind number 4 (`net`), which fails with errno 1. -/
def env_net_fails : JoinEnv where
  sys_open := fun _ _ => .ok ()
  sys_setns := fun i _ => if i = 4 then .error 1 else .ok ()
  sys_write := fun _ _ _ => true
  fopen := fun _ => .error ENOENT
  strerror := fun _ => "Operation not permitted".toList
  getpid := 100
  getpid_lt := by decide

/-- An environment in which the link of kind number 2 (`ipc`) does not exist, every
other link opens, and every join succeeds except that of kind number 5 (`user`), which
fails with errno 1. -/
def env_user_fails : JoinEnv where
  sys_open := fun i _ => if i = 2 then .error ENOENT else .ok ()
  sys_setns := fun i _ => if i = 5 then .error 1 else .ok ()
  sys_write := fun _ _ _ => true
  fopen := fun _ => .error ENOENT
  strerror := fun _ => "Operation not permitted".toList
  getpid := 100
  getpid_lt := by decide

/-- The path of a `write` event. -/
def Event.write_path : Event → Option CStr
  | Event.write p _ => some p
  | _ => none

/-- The buffers that successive calls `fgets (line, 512, f)` return on a stream. The
first argument bounds the number of calls. -/
def fgets_lines : Nat → List Char → List (List Char)
  | 0, _ => []
  | fuel + 1, stream =>
    match fgets 512 stream with
    | none => []
    | some (line, rest) => line :: fgets_lines fuel rest

/-- The entries of a membership file as `join_cgroups` reads them: the buffers of the
successive `fgets` calls, each cut at its newline. -/
def file_entries (content : List Char) : List CStr :=
  (fgets_lines (content.length + 1) content).map cut_at_newline

/-- The path of entry number `i` when its `open` in iteration `i` succeeds. -/
def opened_path (env : JoinEnv) (i : Nat) (entry : CStr) : Option CStr :=
  match cgroup_procs_path entry with
  | none => none
  | some p =>
    match env.sys_open i p with
    | .ok _ => some p
    | .error _ => none

/-- The spec's split of a string at its first colon: the text before it and the text
after it; `none` when there is no colon. -/
def spec_split_colon (s : CStr) : Option (CStr × CStr) :=
  if ':' ∈ s then
    some (s.takeWhile (fun c => c != ':'), (s.dropWhile (fun c => c != ':')).drop 1)
  else none

/-- The spec's split of a membership line at its first two colons into
(hierarchy-id, subsystem-list, cgroup-path); `none` for a line without two colons. -/
def spec_split_line (line : CStr) : Option (CStr × CStr × CStr) :=
  match spec_split_colon line with
  | none => none
  | some (hid, rest) =>
    match spec_split_colon rest with
    | none => none
    | some (subs, path) => some (hid, subs, path)

/-- The spec's controller-membership file of a line: the cgroup root, the
subsystem-list when it is not empty, the cgroup-path, and `/cgroup.procs`. -/
def spec_procs_path (line : CStr) : Option CStr :=
  match spec_split_line line with
  | none => none
  | some (_, subs, path) =>
    if subs = [] then some ("/sys/fs/cgroup".toList ++ path ++ "/cgroup.procs".toList)
    else some ("/sys/fs/cgroup/".toList ++ subs ++ path ++ "/cgroup.procs".toList)

/-- The spec's events for the lines of a membership file, from entry number `i`: for a
line with a path, the open of that path and, when the open succeeds, the write of the
caller's pid in decimal with a newline, and the close. -/
def spec_join_events (env : JoinEnv) : Nat → List CStr → List Event
  | _, [] => []
  | i, l :: ls =>
    (match spec_procs_path l with
      | none => []
      | some p =>
        match env.sys_open i p with
        | .ok _ => [Event.open p, Event.write p (fmt_d (env.getpid : Int) ++ [NL]), Event.close p]
        | .error _ => [Event.open p]) ++ spec_join_events env (i + 1) ls

/-- A line whose spec path fits the 512-byte buffer `cgroup_path`. -/
def fits_path (l : CStr) : Prop := ∀ p ∈ spec_procs_path l, p.length ≤ 511

instance : DecidablePred fits_path := fun l => by
  unfold fits_path
  infer_instance

/-- A line of 488 bytes: hierarchy-id `0`, empty subsystem-list, and a cgroup-path of
485 bytes. -/
def long_path_line : CStr := "0::/".toList ++ List.replicate 484 'a'

/-- An environment whose membership files hold the given content, in which every `open`
and every `write` succeeds. -/
def env_with_cgroup_file (content : List Char) : JoinEnv where
  sys_open := fun _ _ => .ok ()
  sys_setns := fun _ _ => .ok ()
  sys_write := fun _ _ _ => true
  fopen := fun _ => .ok content
  strerror := fun _ => []
  getpid := 4242
  getpid_lt := by decide

/-- An environment whose membership files hold three well-formed lines around a
malformed one, in which the `open` of iteration 0 fails and the `write` of iteration 1
fails. -/
def env_partial_failures : JoinEnv where
  sys_open := fun i _ => if i = 0 then .error 13 else .ok ()
  sys_setns := fun _ _ => .ok ()
  sys_write := fun i _ _ => decide (i ≠ 1)
  fopen := fun _ => .ok "2:cpu:/a\n1:memory:/b\nbad\n0::/c\n".toList
  strerror := fun _ => []
  getpid := 4242
  getpid_lt := by decide

/-- A cgroup entry with the two sides of a DIFFERENT exchanged. -/
def CgLine.swap : CgLine → CgLine
  | CgLine.same i => CgLine.same i
  | CgLine.different i pid1 r1 pid2 r2 => CgLine.different i pid2 r2 pid1 r1
  | CgLine.only_in i pid r => CgLine.only_in i pid r

/-- A namespace entry with the two sides of a DIFFERENT exchanged. -/
def NsLine.swap : NsLine → NsLine
  | NsLine.same name => NsLine.same name
  | NsLine.different name pid1 v1 pid2 v2 => NsLine.different name pid2 v2 pid1 v1

/-! ## Lines read by `fgets` -/

theorem NL_ne_NUL : NL ≠ NUL := by decide

theorem fgets_read_line (rest : List Char) :
    ∀ (l : CStr) (n : Nat), NL ∉ l → l.length < n →
      fgets_read n (l ++ NL :: rest) = (l ++ [NL], rest) := by
  intro l
  induction l with
  | nil =>
    intro n _ hlen
    cases n with
    | zero => simp at hlen
    | succ m => simp [fgets_read]
  | cons c l ih =>
    intro n hnl hlen
    cases n with
    | zero => simp at hlen
    | succ m =>
      have hc : c ≠ NL := fun h => hnl (by simp [h])
      have hl : NL ∉ l := fun h => hnl (by simp [h])
      have := ih m hl (by simpa using hlen)
      simp [fgets_read, hc, this]

theorem fgets_line (l : CStr) (rest : List Char) (hnl : NL ∉ l) (hlen : l.length ≤ 510) :
    fgets 512 (l ++ NL :: rest) = some (l ++ [NL], rest) := by
  have h := fgets_read_line rest l 511 hnl (by omega)
  cases l with
  | nil => simpa [fgets] using h
  | cons c l => simpa [fgets] using h

theorem cut_at_newline_line (l : CStr) (hnl : NL ∉ l) (hnul : NUL ∉ l) :
    cut_at_newline (l ++ [NL]) = l := by
  have h1 : cstr (l ++ [NL]) = l ++ [NL] := by
    unfold cstr
    rw [List.takeWhile_eq_self_iff]
    intro x hx
    rcases List.mem_append.mp hx with h | h
    · have : x ≠ NUL := fun e => hnul (e ▸ h)
      simpa using this
    · have : x = NL := by simpa using h
      subst this
      simpa using NL_ne_NUL
  unfold cut_at_newline
  rw [h1, List.takeWhile_append_of_pos]
  · simp
  · intro x hx
    have : x ≠ NL := fun e => hnl (e ▸ hx)
    simpa using this

/-- On a file of well-formed lines the loop of `get_cgroup_info` stores one record per
line from slot `k` on, up to slot 63, and leaves everything else as it was. -/
theorem get_cgroup_info_loop_lines (lines : List CStr) :
    ∀ (fuel k : Nat) (info : process_info_t), lines.length < fuel →
      info.num_cgroups = (k : Int) → k ≤ 64 → (∀ l ∈ lines, fits_line l) →
      (get_cgroup_info_loop fuel (file_of_lines lines) info).num_cgroups
          = ((min (k + lines.length) 64 : Nat) : Int) ∧
      (get_cgroup_info_loop fuel (file_of_lines lines) info).namespaces = info.namespaces ∧
      ∀ i, (get_cgroup_info_loop fuel (file_of_lines lines) info).cgroups i =
        if k ≤ i ∧ i < min (k + lines.length) 64 then lines.getD (i - k) []
        else info.cgroups i := by
  induction lines with
  | nil =>
    intro fuel k info hfuel hk hk64 _
    cases fuel with
    | zero => simp at hfuel
    | succ f =>
      have e : get_cgroup_info_loop (f + 1) (file_of_lines []) info = info := by
        simp [file_of_lines, get_cgroup_info_loop, fgets]
      rw [e]
      refine ⟨?_, rfl, ?_⟩
      · rw [hk]
        congr 1
        simp only [List.length_nil]
        omega
      · intro i
        have : ¬ (k ≤ i ∧ i < min (k + ([] : List CStr).length) 64) := by
          simp only [List.length_nil]
          omega
        rw [if_neg this]
  | cons l ls ih =>
    intro fuel k info hfuel hk hk64 hfit
    cases fuel with
    | zero => simp at hfuel
    | succ f =>
      obtain ⟨hlen, hnl, hnul⟩ := hfit l (by simp)
      have hfit2 : ∀ x ∈ ls, fits_line x := fun x hx => hfit x (by simp [hx])
      have e : get_cgroup_info_loop (f + 1) (file_of_lines (l :: ls)) info =
          if info.num_cgroups < 64 then
            get_cgroup_info_loop f (file_of_lines ls)
              { info with
                cgroups := set_slot info.cgroups info.num_cgroups.toNat l,
                num_cgroups := info.num_cgroups + 1 }
          else info := by
        simp only [file_of_lines, get_cgroup_info_loop, fgets_line l _ hnl hlen,
          cut_at_newline_line l hnl hnul]
      rw [e]
      have hlen2 : (l :: ls).length = ls.length + 1 := rfl
      rw [hlen2]
      by_cases h64 : k < 64
      · have hlt : info.num_cgroups < 64 := by rw [hk]; exact_mod_cast h64
        rw [if_pos hlt]
        have hf : ls.length < f := by simpa using hfuel
        obtain ⟨h1, h2, h3⟩ := ih f (k + 1)
          { info with
            cgroups := set_slot info.cgroups info.num_cgroups.toNat l,
            num_cgroups := info.num_cgroups + 1 }
          hf (by simp [hk]) (by omega) hfit2
        refine ⟨?_, ?_, ?_⟩
        · rw [h1]
          congr 2
          omega
        · rw [h2]
        · intro i
          rw [h3 i]
          have hkn : info.num_cgroups.toNat = k := by rw [hk]; simp
          simp only [set_slot, hkn]
          by_cases hik : i = k
          · subst hik
            have c1 : ¬ (i + 1 ≤ i ∧ i < min (i + 1 + ls.length) 64) := by omega
            have c2 : i ≤ i ∧ i < min (i + (ls.length + 1)) 64 := by omega
            rw [if_neg c1, if_pos c2, if_pos rfl]
            simp
          · by_cases hlo : k + 1 ≤ i ∧ i < min (k + 1 + ls.length) 64
            · have c2 : k ≤ i ∧ i < min (k + (ls.length + 1)) 64 := by omega
              have e : i - k = (i - (k + 1)) + 1 := by omega
              rw [if_pos hlo, if_pos c2, e]
              simp
            · have c2 : ¬ (k ≤ i ∧ i < min (k + (ls.length + 1)) 64) := by omega
              rw [if_neg hlo, if_neg c2, if_neg hik]
      · have hge : ¬ info.num_cgroups < 64 := by rw [hk]; exact_mod_cast h64
        rw [if_neg hge]
        refine ⟨?_, rfl, ?_⟩
        · rw [hk]
          congr 1
          omega
        · intro i
          have : ¬ (k ≤ i ∧ i < min (k + (ls.length + 1)) 64) := by omega
          rw [if_neg this]

/-- Every successful `fgets` consumes at least one byte of the stream. -/
theorem fgets_rest_length (size : Nat) (hsize : 2 ≤ size) (stream line rest : List Char)
    (h : fgets size stream = some (line, rest)) : rest.length < stream.length := by
  have aux : ∀ (n : Nat) (s : List Char), (fgets_read n s).2.length ≤ s.length := by
    intro n
    induction n with
    | zero => intro s; simp [fgets_read]
    | succ m ih =>
      intro s
      cases s with
      | nil => simp [fgets_read]
      | cons c s =>
        by_cases hc : c = NL
        · simp [fgets_read, hc]
        · have := ih s
          simp only [fgets_read, hc, if_false, List.length_cons]
          omega
  cases stream with
  | nil => simp [fgets] at h
  | cons c s =>
    obtain ⟨m, rfl⟩ : ∃ m, size = m + 2 := ⟨size - 2, by omega⟩
    simp only [fgets, Option.some.injEq] at h
    have h2 : rest = (fgets_read (m + 2 - 1) (c :: s)).2 := by rw [h]
    rw [h2]
    have := aux m s
    by_cases hc : c = NL
    · simp [fgets_read, hc]
    · simp only [Nat.add_succ_sub_one, fgets_read, hc, if_false, List.length_cons]
      omega

/-- The iteration bound of `get_cgroup_info` is never reached: any larger bound gives the
same result. -/
theorem get_cgroup_info_loop_fuel :
    ∀ (fuel : Nat) (stream : List Char) (info : process_info_t), stream.length < fuel →
      get_cgroup_info_loop fuel stream info =
        get_cgroup_info_loop (stream.length + 1) stream info := by
  intro fuel
  induction fuel using Nat.strong_induction_on with
  | _ fuel ih =>
    intro stream info hlt
    cases fuel with
    | zero => simp at hlt
    | succ f =>
      simp only [get_cgroup_info_loop]
      cases hg : fgets 512 stream with
      | none => rfl
      | some p =>
        obtain ⟨line, rest⟩ := p
        have hr := fgets_rest_length 512 (by decide) stream line rest hg
        simp only []
        split
        · rw [ih f (by omega) rest _ (by omega),
            ih stream.length (by omega) rest _ (by omega)]
        · rfl

/-- The bytes stored by `fgets` and the rest of the stream make up the stream. -/
theorem fgets_read_append : ∀ (n : Nat) (s : List Char),
    (fgets_read n s).1 ++ (fgets_read n s).2 = s := by
  intro n
  induction n with
  | zero => intro s; simp [fgets_read]
  | succ m ih =>
    intro s
    cases s with
    | nil => simp [fgets_read]
    | cons c s =>
      by_cases hc : c = NL
      · simp [fgets_read, hc]
      · simp [fgets_read, hc, ih s]

/-- The successive `fgets` calls read the whole stream: the buffers they return, put end
to end, are the stream. -/
theorem fgets_lines_join :
    ∀ (fuel : Nat) (stream : List Char), stream.length < fuel →
      (fgets_lines fuel stream).flatten = stream := by
  intro fuel
  induction fuel with
  | zero => intro stream h; simp at h
  | succ f ih =>
    intro stream hlt
    simp only [fgets_lines]
    cases hg : fgets 512 stream with
    | none =>
      cases stream with
      | nil => rfl
      | cons c s => simp [fgets] at hg
    | some p =>
      obtain ⟨line, rest⟩ := p
      have hr := fgets_rest_length 512 (by decide) stream line rest hg
      have happ : line ++ rest = stream := by
        cases stream with
        | nil => simp [fgets] at hg
        | cons c s =>
          simp only [fgets, Option.some.injEq] at hg
          have := fgets_read_append (512 - 1) (c :: s)
          rw [hg] at this
          exact this
      simp only [List.flatten_cons, ih rest (by omega), happ]

theorem file_of_lines_length (lines : List CStr) :
    lines.length ≤ (file_of_lines lines).length := by
  induction lines with
  | nil => simp [file_of_lines]
  | cons l ls ih =>
    simp only [file_of_lines, List.length_cons, List.length_append]
    omega

/-- C6 (amended). For a readable membership file of `n` lines, each of at most 510 bytes
before its newline and free of NUL bytes, `get_cgroup_info` returns 0 with
`num_cgroups = min n 64`, record `i` is line `i` without its newline for every
`i < min n 64`, nothing is stored in the slots from `min n 64` on, and a file of 70 lines
gives 64 records. When the file cannot be opened it returns -1 with `num_cgroups = 0`. -/
theorem get_cgroup_info_lines (sys : Sys) (pid : Int) (info : process_info_t) :
    (∀ lines : List CStr, sys.fopen (proc_cgroup_path pid) = .ok (file_of_lines lines) →
      (∀ l ∈ lines, fits_line l) →
        (get_cgroup_info sys pid info).1 = 0 ∧
        (get_cgroup_info sys pid info).2.num_cgroups = ((min lines.length 64 : Nat) : Int) ∧
        (∀ i, i < min lines.length 64 →
          lines[i]? = some ((get_cgroup_info sys pid info).2.cgroups i)) ∧
        (∀ i, min lines.length 64 ≤ i →
          (get_cgroup_info sys pid info).2.cgroups i = info.cgroups i) ∧
        (lines.length = 70 → (get_cgroup_info sys pid info).2.num_cgroups = 64)) ∧
    (∀ e, sys.fopen (proc_cgroup_path pid) = .error e →
        (get_cgroup_info sys pid info).1 = -1 ∧
        (get_cgroup_info sys pid info).2.num_cgroups = 0) := by
  constructor
  · intro lines hopen hfit
    have hfuel : lines.length < (file_of_lines lines).length + 1 := by
      have := file_of_lines_length lines
      omega
    obtain ⟨h1, _, h3⟩ := get_cgroup_info_loop_lines lines ((file_of_lines lines).length + 1) 0
      { info with num_cgroups := 0 } hfuel rfl (by omega) hfit
    have e : get_cgroup_info sys pid info =
        (0, get_cgroup_info_loop ((file_of_lines lines).length + 1) (file_of_lines lines)
          { info with num_cgroups := 0 }) := by
      simp only [get_cgroup_info, hopen]
    rw [e]
    simp only [Nat.zero_add, Nat.zero_le, true_and, Nat.sub_zero] at h1 h3
    refine ⟨rfl, h1, ?_, ?_, ?_⟩
    · intro i hi
      show _ = some ((get_cgroup_info_loop _ _ _).cgroups i)
      rw [h3 i, if_pos hi]
      have hi2 : i < lines.length := by omega
      simp [List.getD, List.getElem?_eq_getElem hi2]
    · intro i hi
      show (get_cgroup_info_loop _ _ _).cgroups i = _
      rw [h3 i, if_neg (by omega)]
    · intro h70
      show (get_cgroup_info_loop _ _ _).num_cgroups = 64
      rw [h1, h70]
      rfl
  · intro e hopen
    simp [get_cgroup_info, hopen]

/-- C6, instance of `get_cgroup_info_lines`: a two-line file gives two records, and a
file that cannot be opened gives the return code -1 with count 0. -/
theorem get_cgroup_info_lines_witness :
    (get_cgroup_info (sys_with_cgroup_file (file_of_lines ["0::/a".toList, "1:cpu:/b".toList]))
        7 zero_info).1 = 0 ∧
    (get_cgroup_info (sys_with_cgroup_file (file_of_lines ["0::/a".toList, "1:cpu:/b".toList]))
        7 zero_info).2.num_cgroups = 2 ∧
    (get_cgroup_info (sys_with_cgroup_file (file_of_lines ["0::/a".toList, "1:cpu:/b".toList]))
        7 zero_info).2.cgroups 1 = "1:cpu:/b".toList ∧
    (get_cgroup_info sys_first_unreadable 1 stale_info).1 = -1 ∧
    (get_cgroup_info sys_first_unreadable 1 stale_info).2.num_cgroups = 0 := by
  have h := (get_cgroup_info_lines
    (sys_with_cgroup_file (file_of_lines ["0::/a".toList, "1:cpu:/b".toList])) 7 zero_info).1
    ["0::/a".toList, "1:cpu:/b".toList] rfl (by decide)
  have hfail := (get_cgroup_info_lines sys_first_unreadable 1 stale_info).2 13 rfl
  refine ⟨h.1, h.2.1, ?_, hfail.1, hfail.2⟩
  have h1 := h.2.2.1 1 (by decide)
  simpa using h1.symm

set_option maxRecDepth 100000 in
/-- C6, counterexample to the claim as stated: a readable file of one line of 511 bytes
gives two records, the line itself and an empty one. -/
theorem get_cgroup_info_long_line :
    [long_line].length = 1 ∧
    (get_cgroup_info (sys_with_cgroup_file (file_of_lines [long_line])) 7 zero_info).1 = 0 ∧
    (get_cgroup_info (sys_with_cgroup_file (file_of_lines [long_line])) 7
      zero_info).2.num_cgroups = 2 ∧
    (get_cgroup_info (sys_with_cgroup_file (file_of_lines [long_line])) 7
      zero_info).2.num_cgroups ≠ ((min [long_line].length 64 : Nat) : Int) ∧
    (get_cgroup_info (sys_with_cgroup_file (file_of_lines [long_line])) 7
      zero_info).2.cgroups 1 = [] := by
  decide

/-! ## Context differ -/

theorem summary_text_all_same (b : Bool) : summary_text b = "ALL SAME" ↔ b = true := by
  cases b <;> simp [summary_text]

theorem summary_text_cases (b : Bool) :
    summary_text b = "ALL SAME" ∨ summary_text b = "SOME DIFFERENT" := by
  cases b <;> simp [summary_text]

/-- The lines printed by the cgroup loop are the positional verdicts of the indices it
visits, in order. -/
theorem diff_cg_loop_lines (info1 info2 : process_info_t) (pid1 pid2 : Int) :
    ∀ (n i : Nat) (s : Bool),
      (diff_cg_loop info1 info2 pid1 pid2 n i s).1 =
        (List.range' i n).map (positional_verdict info1.cgroups info2.cgroups
          info1.num_cgroups.toNat info2.num_cgroups.toNat pid1 pid2) := by
  intro n
  induction n with
  | zero => intro i s; simp [diff_cg_loop]
  | succ n ih =>
    intro i s
    have e1 : ((i : Int) < info1.num_cgroups) ↔ i < info1.num_cgroups.toNat :=
      Int.lt_toNat.symm
    have e2 : ((i : Int) < info2.num_cgroups) ↔ i < info2.num_cgroups.toNat :=
      Int.lt_toNat.symm
    simp only [diff_cg_loop, List.range'_succ, List.map_cons, positional_verdict, e1, e2,
      lt_min_iff]
    by_cases h1 : i < info1.num_cgroups.toNat <;> by_cases h2 : i < info2.num_cgroups.toNat <;>
      by_cases h3 : info1.cgroups i = info2.cgroups i <;>
      simp [h1, h2, h3, ih, positional_verdict]

/-- The flag `cg_same` after the cgroup loop: it stays set only if it was set before and
every index visited is below both counts with equal records. -/
theorem diff_cg_loop_flag (info1 info2 : process_info_t) (pid1 pid2 : Int) :
    ∀ (n i : Nat) (s : Bool),
      (diff_cg_loop info1 info2 pid1 pid2 n i s).2 =
        (s && (List.range' i n).all (fun j =>
          decide (j < info1.num_cgroups.toNat ∧ j < info2.num_cgroups.toNat ∧
            info1.cgroups j = info2.cgroups j))) := by
  intro n
  induction n with
  | zero => intro i s; simp [diff_cg_loop]
  | succ n ih =>
    intro i s
    have e1 : ((i : Int) < info1.num_cgroups) ↔ i < info1.num_cgroups.toNat :=
      Int.lt_toNat.symm
    have e2 : ((i : Int) < info2.num_cgroups) ↔ i < info2.num_cgroups.toNat :=
      Int.lt_toNat.symm
    simp only [diff_cg_loop, List.range'_succ, List.all_cons, e1, e2]
    by_cases h1 : i < info1.num_cgroups.toNat <;> by_cases h2 : i < info2.num_cgroups.toNat <;>
      by_cases h3 : info1.cgroups i = info2.cgroups i <;>
      simp [h1, h2, h3, ih]

/-- The lines printed by the namespace loop are the verdicts of the kinds it visits. -/
theorem diff_ns_loop_lines (info1 info2 : process_info_t) (pid1 pid2 : Int) :
    ∀ (names : List String) (i : Nat) (s : Bool),
      (diff_ns_loop info1 info2 pid1 pid2 names i s).1 =
        (names.enumFrom i).map (fun p =>
          ns_verdict info1.namespaces info2.namespaces pid1 pid2 p.1 p.2) := by
  intro names
  induction names with
  | nil => intro i s; simp [diff_ns_loop]
  | cons ns rest ih =>
    intro i s
    by_cases h : info1.namespaces i = info2.namespaces i <;>
      simp [diff_ns_loop, List.enumFrom, ns_verdict, h, ih]

/-- The flag `ns_same` after the namespace loop. -/
theorem diff_ns_loop_flag (info1 info2 : process_info_t) (pid1 pid2 : Int) :
    ∀ (names : List String) (i : Nat) (s : Bool),
      (diff_ns_loop info1 info2 pid1 pid2 names i s).2 =
        (s && (names.enumFrom i).all (fun p =>
          decide (info1.namespaces p.1 = info2.namespaces p.1))) := by
  intro names
  induction names with
  | nil => intro i s; simp [diff_ns_loop]
  | cons ns rest ih =>
    intro i s
    by_cases h : info1.namespaces i = info2.namespaces i <;>
      simp [diff_ns_loop, List.enumFrom, h, ih]

theorem max_toNat (x y : Int) :
    (if x > y then x else y).toNat = max x.toNat y.toNat := by
  split <;> omega

theorem diff_print_cg_lines (info1 info2 : process_info_t) (pid1 pid2 : Int)
    (stderr : List String) :
    (diff_print info1 info2 pid1 pid2 stderr).cg_lines =
      (List.range (max info1.num_cgroups.toNat info2.num_cgroups.toNat)).map
        (positional_verdict info1.cgroups info2.cgroups
          info1.num_cgroups.toNat info2.num_cgroups.toNat pid1 pid2) := by
  simp only [diff_print, diff_cg_loop_lines, max_toNat, List.range_eq_range']

/-- C2. The cgroup section printed by `diff_processes` is positional: for the structs
`info1` (`m` records, process `pid1`) and `info2` (`n` records, process `pid2`) it holds
exactly `max m n` entries, entry `i` being the verdict for index `i`: SAME when
`i < min m n` and the two records are equal, DIFFERENT with both records when
`i < min m n` and they differ, only in `pid1` when `n ≤ i < m`, only in `pid2` when
`m ≤ i < n`. For the records `[x, y]` against `[y, x]` with `x ≠ y` both indices are
DIFFERENT. -/
theorem diff_cgroups_positional (info1 info2 : process_info_t) (pid1 pid2 : Int)
    (stderr : List String) :
    (diff_print info1 info2 pid1 pid2 stderr).cg_lines =
      (List.range (max info1.num_cgroups.toNat info2.num_cgroups.toNat)).map
        (positional_verdict info1.cgroups info2.cgroups
          info1.num_cgroups.toNat info2.num_cgroups.toNat pid1 pid2) ∧
    (diff_print info1 info2 pid1 pid2 stderr).cg_lines.length =
      max info1.num_cgroups.toNat info2.num_cgroups.toNat ∧
    (∀ x y : CStr, x ≠ y →
      (diff_print (info_of_records [x, y]) (info_of_records [y, x]) pid1 pid2 stderr).cg_lines =
        [CgLine.different 0 pid1 x pid2 y, CgLine.different 1 pid1 y pid2 x]) := by
  refine ⟨diff_print_cg_lines _ _ _ _ _, ?_, ?_⟩
  · rw [diff_print_cg_lines]
    simp
  · intro x y hxy
    rw [diff_print_cg_lines]
    have hyx : y ≠ x := fun h => hxy h.symm
    simp [info_of_records, List.range_succ, positional_verdict, hxy, hyx]

/-- C2, instance of `diff_cgroups_positional`: the records `["0::/a", "0::/b"]` against
`["0::/b", "0::/a"]` give DIFFERENT at index 0 and at index 1. -/
theorem diff_cgroups_positional_witness :
    (diff_print (info_of_records ["0::/a".toList, "0::/b".toList])
        (info_of_records ["0::/b".toList, "0::/a".toList]) 10 20 []).cg_lines =
      [CgLine.different 0 10 "0::/a".toList 20 "0::/b".toList,
        CgLine.different 1 10 "0::/b".toList 20 "0::/a".toList] :=
  (diff_cgroups_positional zero_info zero_info 10 20 []).2.2
    "0::/a".toList "0::/b".toList (by decide)

theorem diff_print_ns_summary (info1 info2 : process_info_t) (pid1 pid2 : Int)
    (stderr : List String) :
    (diff_print info1 info2 pid1 pid2 stderr).ns_summary = "ALL SAME" ↔
      ∀ k, k < 7 → info1.namespaces k = info2.namespaces k := by
  simp only [diff_print, summary_text_all_same, diff_ns_loop_flag, namespaces, List.enumFrom,
    List.all_cons, List.all_nil, Bool.and_true, Bool.true_and, Bool.and_eq_true,
    decide_eq_true_eq]
  constructor
  · rintro ⟨h0, h1, h2, h3, h4, h5, h6⟩ k hk
    interval_cases k <;> assumption
  · intro h
    exact ⟨h 0 (by omega), h 1 (by omega), h 2 (by omega), h 3 (by omega), h 4 (by omega),
      h 5 (by omega), h 6 (by omega)⟩

theorem ns_verdict_countP (a b : Nat → CStr) (pid1 pid2 : Int) :
    ∀ (l : List (Nat × String)),
      ((l.map (fun p => ns_verdict a b pid1 pid2 p.1 p.2)).countP NsLine.is_different) =
        l.countP (fun p => decide (a p.1 ≠ b p.1)) := by
  intro l
  rw [List.countP_map]
  congr 1
  funext p
  by_cases h : a p.1 = b p.1 <;> simp [ns_verdict, NsLine.is_different, h]

theorem diff_print_cg_summary (info1 info2 : process_info_t) (pid1 pid2 : Int)
    (stderr : List String) :
    (diff_print info1 info2 pid1 pid2 stderr).cg_summary = "ALL SAME" ↔
      (info1.num_cgroups = info2.num_cgroups ∧
        ∀ i : Nat, (i : Int) < info1.num_cgroups → info1.cgroups i = info2.cgroups i) := by
  simp only [diff_print, summary_text_all_same, diff_cg_loop_flag, max_toNat,
    Bool.and_eq_true, List.all_eq_true, decide_eq_true_eq, Bool.not_eq_true',
    decide_eq_false_iff_not, ne_eq, not_not, List.mem_range'_1, Nat.zero_add, Nat.zero_le,
    true_and]
  constructor
  · rintro ⟨heq, h⟩
    refine ⟨heq, fun i hi => ?_⟩
    have hi2 : i < info1.num_cgroups.toNat := Int.lt_toNat.mpr hi
    exact (h i (lt_of_lt_of_le hi2 (le_max_left _ _))).2.2
  · rintro ⟨heq, h⟩
    refine ⟨heq, fun i hi => ?_⟩
    have hi1 : i < info1.num_cgroups.toNat := by
      rw [← heq, max_self] at hi
      exact hi
    exact ⟨hi1, heq ▸ hi1, h i (Int.lt_toNat.mp hi1)⟩

/-- C3. The summaries printed by `diff_processes` are exact for every pair of structs: the
namespace summary is "ALL SAME" exactly when the tokens of all 7 kinds are equal, and
"SOME DIFFERENT" otherwise; the number of DIFFERENT namespace entries is the number of
kinds whose tokens differ; the cgroup summary is "ALL SAME" exactly when the two counts
are equal and the records are equal at every index below that count. -/
theorem diff_summaries_exact (info1 info2 : process_info_t) (pid1 pid2 : Int)
    (stderr : List String) :
    ((diff_print info1 info2 pid1 pid2 stderr).ns_summary = "ALL SAME" ↔
      ∀ k, k < 7 → info1.namespaces k = info2.namespaces k) ∧
    ((diff_print info1 info2 pid1 pid2 stderr).ns_summary = "ALL SAME" ∨
      (diff_print info1 info2 pid1 pid2 stderr).ns_summary = "SOME DIFFERENT") ∧
    ((diff_print info1 info2 pid1 pid2 stderr).ns_lines.countP NsLine.is_different =
      (List.range 7).countP (fun k => decide (info1.namespaces k ≠ info2.namespaces k))) ∧
    ((diff_print info1 info2 pid1 pid2 stderr).cg_summary = "ALL SAME" ↔
      (info1.num_cgroups = info2.num_cgroups ∧
        ∀ i : Nat, (i : Int) < info1.num_cgroups → info1.cgroups i = info2.cgroups i)) ∧
    ((diff_print info1 info2 pid1 pid2 stderr).cg_summary = "ALL SAME" ∨
      (diff_print info1 info2 pid1 pid2 stderr).cg_summary = "SOME DIFFERENT") := by
  refine ⟨diff_print_ns_summary _ _ _ _ _, summary_text_cases _, ?_,
    diff_print_cg_summary _ _ _ _ _, summary_text_cases _⟩
  show (diff_ns_loop info1 info2 pid1 pid2 namespaces 0 true).1.countP _ = _
  rw [diff_ns_loop_lines, ns_verdict_countP]
  simp [namespaces, List.enumFrom, List.range_succ, List.countP_cons, List.countP_append]

/-! ### The second retrieval is skipped when the first fails -/

/-- C1, the code at the failing input. Process 1 has an unreadable membership file and
process 2 has the one record `0::/b`. `diff_processes (1, 2)` never calls
`get_cgroup_info` for process 2: with a zeroed stack the cgroup section is empty and
the summary says "ALL SAME", and in general the section shows what the stack held in
`info2`, not the record of process 2. In the other order the record of process 2 is
reported as present only there. -/
theorem diff_processes_first_unreadable :
    (get_cgroup_info sys_first_unreadable 1 zero_info).1 = -1 ∧
    (get_cgroup_info sys_first_unreadable 2 zero_info).1 = 0 ∧
    (get_cgroup_info sys_first_unreadable 2 zero_info).2.num_cgroups = 1 ∧
    (diff_processes sys_first_unreadable 1 2 zero_info zero_info).cg_lines = [] ∧
    (diff_processes sys_first_unreadable 1 2 zero_info zero_info).cg_summary = "ALL SAME" ∧
    (diff_processes sys_first_unreadable 1 2 zero_info stale_info).cg_lines =
      [CgLine.only_in 0 2 "stale".toList] ∧
    (diff_processes sys_first_unreadable 2 1 zero_info zero_info).cg_lines =
      [CgLine.only_in 0 2 "0::/b".toList] := by
  decide

/-- C4, the code at the failing input. Process 1 has an unreadable membership file.
`diff_processes (1, 1)` sets `info1.num_cgroups` to 0 and leaves `info2` as the stack
held it: when that content has `num_cgroups = 1` the report notes different counts
(0 vs 1), shows an entry only in the second process, and says "SOME DIFFERENT". -/
theorem diff_processes_self_unreadable :
    (get_cgroup_info sys_first_unreadable 1 zero_info).1 = -1 ∧
    (diff_processes sys_first_unreadable 1 1 zero_info stale_info).count_note = some (0, 1) ∧
    (diff_processes sys_first_unreadable 1 1 zero_info stale_info).cg_lines =
      [CgLine.only_in 0 1 "stale".toList] ∧
    (diff_processes sys_first_unreadable 1 1 zero_info stale_info).cg_summary =
      "SOME DIFFERENT" ∧
    (diff_processes sys_first_unreadable 1 1 zero_info stale_info).ns_summary = "ALL SAME" := by
  decide

/-- C5, the code at the failing input. Process 1 has an unreadable membership file and
process 2 has one record. On a zeroed stack `diff_processes (1, 2)` prints no cgroup
entry and "ALL SAME", while `diff_processes (2, 1)` prints one entry, only in process 2,
and "SOME DIFFERENT": the two orders disagree on the number of entries and on the
summary. -/
theorem diff_processes_asymmetric :
    (diff_processes sys_first_unreadable 1 2 zero_info zero_info).cg_lines.length = 0 ∧
    (diff_processes sys_first_unreadable 2 1 zero_info zero_info).cg_lines.length = 1 ∧
    (diff_processes sys_first_unreadable 1 2 zero_info zero_info).cg_summary = "ALL SAME" ∧
    (diff_processes sys_first_unreadable 2 1 zero_info zero_info).cg_summary =
      "SOME DIFFERENT" ∧
    (diff_processes sys_first_unreadable 1 2 zero_info zero_info).cg_summary ≠
      (diff_processes sys_first_unreadable 2 1 zero_info zero_info).cg_summary := by
  decide

/-- When the first `get_cgroup_info` fails, `diff_processes` compares the first struct,
with count 0, against the second struct as its stack slot held it after the namespace
calls: the membership file of the second process plays no part. -/
theorem diff_retrieve_first_failure (sys : Sys) (pid1 pid2 : Int)
    (stack1 stack2 : process_info_t) (e : Nat)
    (h : sys.fopen (proc_cgroup_path pid1) = .error e) :
    diff_retrieve sys pid1 pid2 stack1 stack2 =
      some ({ (get_namespace_info sys pid1 stack1).2 with num_cgroups := 0 },
        (get_namespace_info sys pid2 stack2).2,
        ["Warning: Failed to get cgroup info for one or both processes\n"]) := by
  simp [diff_retrieve, get_namespace_info, get_cgroup_info, h]

/-- Every run of `diff_processes` prints the comparison of the two structs that its
retrieval calls leave: `get_namespace_info` never fails. -/
theorem diff_processes_prints (sys : Sys) (pid1 pid2 : Int) (stack1 stack2 : process_info_t) :
    ∃ info1 info2 err, diff_retrieve sys pid1 pid2 stack1 stack2 = some (info1, info2, err) ∧
      diff_processes sys pid1 pid2 stack1 stack2 = diff_print info1 info2 pid1 pid2 err := by
  unfold diff_processes
  cases h : diff_retrieve sys pid1 pid2 stack1 stack2 with
  | none =>
    exfalso
    simp only [diff_retrieve, get_namespace_info] at h
    revert h
    simp only [ne_eq, not_true_eq_false, if_false]
    split
    · simp
    · split <;> simp
  | some r =>
    obtain ⟨info1, info2, err⟩ := r
    exact ⟨info1, info2, err, rfl, rfl⟩

/-- When only the second `get_cgroup_info` fails, the second struct has count 0. -/
theorem diff_retrieve_second_failure (sys : Sys) (pid1 pid2 : Int)
    (stack1 stack2 : process_info_t) (content : List Char) (e : Nat)
    (h1 : sys.fopen (proc_cgroup_path pid1) = .ok content)
    (h2 : sys.fopen (proc_cgroup_path pid2) = .error e) :
    diff_retrieve sys pid1 pid2 stack1 stack2 =
      some ((get_cgroup_info sys pid1 (get_namespace_info sys pid1 stack1).2).2,
        { (get_namespace_info sys pid2 stack2).2 with num_cgroups := 0 },
        ["Warning: Failed to get cgroup info for one or both processes\n"]) := by
  simp [diff_retrieve, get_namespace_info, get_cgroup_info, h1, h2]

/-- Against a struct with count 0, every record of the first struct is reported as
present only in the first process. -/
theorem diff_print_only_first (info1 info2 : process_info_t) (pid1 pid2 : Int)
    (stderr : List String) (h : info2.num_cgroups = 0) :
    (diff_print info1 info2 pid1 pid2 stderr).cg_lines =
      (List.range info1.num_cgroups.toNat).map
        (fun i => CgLine.only_in i pid1 (info1.cgroups i)) := by
  rw [diff_print_cg_lines, h]
  simp only [Int.toNat_zero, Nat.max_zero, Nat.min_zero]
  apply List.map_congr_left
  intro i hi
  have hi2 : i < info1.num_cgroups.toNat := List.mem_range.mp hi
  simp [positional_verdict, hi2]

/-- The comparison of a struct with itself reports SAME everywhere. -/
theorem diff_print_self (info : process_info_t) (pid1 pid2 : Int) (stderr : List String) :
    (diff_print info info pid1 pid2 stderr).ns_lines = namespaces.map NsLine.same ∧
    (diff_print info info pid1 pid2 stderr).cg_lines =
      (List.range info.num_cgroups.toNat).map CgLine.same ∧
    (diff_print info info pid1 pid2 stderr).ns_summary = "ALL SAME" ∧
    (diff_print info info pid1 pid2 stderr).cg_summary = "ALL SAME" := by
  refine ⟨?_, ?_, ?_, ?_⟩
  · show (diff_ns_loop info info pid1 pid2 namespaces 0 true).1 = _
    rw [diff_ns_loop_lines]
    simp [namespaces, List.enumFrom, ns_verdict]
  · rw [diff_print_cg_lines]
    simp only [max_self, min_self]
    apply List.map_congr_left
    intro i hi
    have hi2 : i < info.num_cgroups.toNat := List.mem_range.mp hi
    simp [positional_verdict, hi2]
  · exact (diff_print_ns_summary _ _ _ _ _).mpr (fun _ _ => rfl)
  · exact (diff_print_cg_summary _ _ _ _ _).mpr ⟨rfl, fun _ _ => rfl⟩

/-- The comparison is symmetric in the two structs: exchanging them exchanges the two
sides of every DIFFERENT entry and keeps every other entry and both summaries. -/
theorem diff_print_swap (info1 info2 : process_info_t) (pid1 pid2 : Int)
    (stderr : List String) :
    (diff_print info2 info1 pid2 pid1 stderr).ns_lines =
      (diff_print info1 info2 pid1 pid2 stderr).ns_lines.map NsLine.swap ∧
    (diff_print info2 info1 pid2 pid1 stderr).cg_lines =
      (diff_print info1 info2 pid1 pid2 stderr).cg_lines.map CgLine.swap ∧
    (diff_print info2 info1 pid2 pid1 stderr).ns_summary =
      (diff_print info1 info2 pid1 pid2 stderr).ns_summary ∧
    (diff_print info2 info1 pid2 pid1 stderr).cg_summary =
      (diff_print info1 info2 pid1 pid2 stderr).cg_summary := by
  have hsum : ∀ a b : String, (a = "ALL SAME" ∨ a = "SOME DIFFERENT") →
      (b = "ALL SAME" ∨ b = "SOME DIFFERENT") → (a = "ALL SAME" ↔ b = "ALL SAME") → a = b := by
    intro a b ha hb hab
    rcases ha with ha | ha <;> rcases hb with hb | hb
    · rw [ha, hb]
    · exact absurd (hab.mp ha) (by rw [hb]; decide)
    · exact absurd (hab.mpr hb) (by rw [ha]; decide)
    · rw [ha, hb]
  refine ⟨?_, ?_, ?_, ?_⟩
  · show (diff_ns_loop info2 info1 pid2 pid1 namespaces 0 true).1 =
      (diff_ns_loop info1 info2 pid1 pid2 namespaces 0 true).1.map NsLine.swap
    rw [diff_ns_loop_lines, diff_ns_loop_lines, List.map_map]
    apply List.map_congr_left
    intro p _
    by_cases h : info1.namespaces p.1 = info2.namespaces p.1
    · simp [ns_verdict, NsLine.swap, h]
    · have h2 : ¬ info2.namespaces p.1 = info1.namespaces p.1 := fun e => h e.symm
      simp [ns_verdict, NsLine.swap, h, h2]
  · rw [diff_print_cg_lines, diff_print_cg_lines, List.map_map, max_comm]
    apply List.map_congr_left
    intro i hmem
    have hi : i < max info1.num_cgroups.toNat info2.num_cgroups.toNat :=
      List.mem_range.mp hmem
    have hor : i < info1.num_cgroups.toNat ∨ i < info2.num_cgroups.toNat := by omega
    by_cases h : info1.cgroups i = info2.cgroups i
    · by_cases h1 : i < info1.num_cgroups.toNat <;>
        by_cases h2 : i < info2.num_cgroups.toNat <;>
        first
          | (exfalso; omega)
          | simp [positional_verdict, CgLine.swap, h, h1, h2]
    · have h3 : ¬ info2.cgroups i = info1.cgroups i := fun e => h e.symm
      by_cases h1 : i < info1.num_cgroups.toNat <;>
        by_cases h2 : i < info2.num_cgroups.toNat <;>
        first
          | (exfalso; omega)
          | simp [positional_verdict, CgLine.swap, h, h3, h1, h2]
  · exact hsum _ _ (summary_text_cases _) (summary_text_cases _)
      ((diff_print_ns_summary info2 info1 pid2 pid1 stderr).trans
        (Iff.trans ⟨fun h k hk => (h k hk).symm, fun h k hk => (h k hk).symm⟩
          (diff_print_ns_summary info1 info2 pid1 pid2 stderr).symm))
  · exact hsum _ _ (summary_text_cases _) (summary_text_cases _)
      ((diff_print_cg_summary info2 info1 pid2 pid1 stderr).trans
        (Iff.trans
          ⟨fun h => ⟨h.1.symm, fun i hi => (h.2 i (h.1 ▸ hi)).symm⟩,
            fun h => ⟨h.1.symm, fun i hi => (h.2 i (h.1 ▸ hi)).symm⟩⟩
          (diff_print_cg_summary info1 info2 pid1 pid2 stderr).symm))

/-! ## Namespace joiner -/

theorem join_namespaces_loop_absent (env : JoinEnv) (pid : Int) (a : String)
    (rest : List String) (i : Nat)
    (h : env.sys_open i (proc_ns_path pid a) = .error ENOENT) :
    join_namespaces_loop env pid (a :: rest) i =
      ((join_namespaces_loop env pid rest (i + 1)).1,
        Event.open (proc_ns_path pid a) :: (join_namespaces_loop env pid rest (i + 1)).2) := by
  simp only [join_namespaces_loop, h, if_true]

theorem join_namespaces_loop_joined (env : JoinEnv) (pid : Int) (a : String)
    (rest : List String) (i : Nat)
    (h : env.sys_open i (proc_ns_path pid a) = .ok ())
    (hs : env.sys_setns i (proc_ns_path pid a) = .ok ()) :
    join_namespaces_loop env pid (a :: rest) i =
      ((join_namespaces_loop env pid rest (i + 1)).1,
        [Event.open (proc_ns_path pid a), Event.setns (proc_ns_path pid a),
          Event.close (proc_ns_path pid a)] ++
          (join_namespaces_loop env pid rest (i + 1)).2) := by
  simp only [join_namespaces_loop, h, hs]

theorem join_namespaces_loop_user_warning (env : JoinEnv) (pid : Int)
    (rest : List String) (i : Nat) (errno : Nat)
    (h : env.sys_open i (proc_ns_path pid "user") = .ok ())
    (hs : env.sys_setns i (proc_ns_path pid "user") = .error errno) :
    join_namespaces_loop env pid ("user" :: rest) i =
      ((join_namespaces_loop env pid rest (i + 1)).1,
        [Event.open (proc_ns_path pid "user"), Event.setns (proc_ns_path pid "user"),
          Event.stderr (user_warning_message env errno),
          Event.close (proc_ns_path pid "user")] ++
          (join_namespaces_loop env pid rest (i + 1)).2) := by
  simp only [join_namespaces_loop, h, hs, if_true, user_warning_message]

theorem join_namespaces_loop_failed (env : JoinEnv) (pid : Int) (a : String)
    (rest : List String) (i : Nat) (errno : Nat) (huser : a ≠ "user")
    (h : env.sys_open i (proc_ns_path pid a) = .ok ())
    (hs : env.sys_setns i (proc_ns_path pid a) = .error errno) :
    join_namespaces_loop env pid (a :: rest) i =
      (-1, [Event.open (proc_ns_path pid a), Event.setns (proc_ns_path pid a),
        Event.stderr (join_failure_message env a errno),
        Event.close (proc_ns_path pid a)]) := by
  simp only [join_namespaces_loop, h, hs, huser, if_false, join_failure_message]

/-- An abort of the loop of `join_namespaces`: when the kinds of `pre` pass and the join
of the next kind `k`, not `user`, fails, the loop returns -1, has opened exactly the
kinds of `pre` and `k`, and ends with the failed join of `k` and its message. -/
theorem join_namespaces_loop_abort (env : JoinEnv) (pid : Int) (k : String)
    (post : List String) (errno : Nat) (huser : k ≠ "user") :
    ∀ (pre : List String) (i0 : Nat),
      (∀ j ns, pre[j]? = some ns → kind_passes env pid (i0 + j) ns) →
      env.sys_open (i0 + pre.length) (proc_ns_path pid k) = .ok () →
      env.sys_setns (i0 + pre.length) (proc_ns_path pid k) = .error errno →
      (join_namespaces_loop env pid (pre ++ k :: post) i0).1 = -1 ∧
      (join_namespaces_loop env pid (pre ++ k :: post) i0).2.filterMap Event.open_path =
        (pre ++ [k]).map (proc_ns_path pid) ∧
      ∃ t, (join_namespaces_loop env pid (pre ++ k :: post) i0).2 =
        t ++ [Event.open (proc_ns_path pid k), Event.setns (proc_ns_path pid k),
          Event.stderr (join_failure_message env k errno),
          Event.close (proc_ns_path pid k)] := by
  intro pre
  induction pre with
  | nil =>
    intro i0 _ hopen hsetns
    simp only [List.length_nil, Nat.add_zero] at hopen hsetns
    rw [List.nil_append, join_namespaces_loop_failed env pid k post i0 errno huser hopen hsetns]
    exact ⟨rfl, by simp [Event.open_path], ⟨[], rfl⟩⟩
  | cons a pre ih =>
    intro i0 hpass hopen hsetns
    have hrest : ∀ j ns, pre[j]? = some ns → kind_passes env pid (i0 + 1 + j) ns := by
      intro j ns hj
      have := hpass (j + 1) ns (by simpa using hj)
      rwa [show i0 + (j + 1) = i0 + 1 + j by omega] at this
    have hi : i0 + 1 + pre.length = i0 + (a :: pre).length := by
      simp only [List.length_cons]; omega
    obtain ⟨h1, h2, t, h3⟩ := ih (i0 + 1) hrest (by rw [hi]; exact hopen)
      (by rw [hi]; exact hsetns)
    have ha := hpass 0 a (by simp)
    simp only [Nat.add_zero] at ha
    rw [List.cons_append]
    rcases ha with hno | ⟨hop, hjoin | hu⟩
    · rw [join_namespaces_loop_absent env pid a _ i0 hno]
      refine ⟨h1, ?_, ⟨Event.open (proc_ns_path pid a) :: t, ?_⟩⟩
      · simp [Event.open_path, h2]
      · simp [h3]
    · rw [join_namespaces_loop_joined env pid a _ i0 hop hjoin]
      refine ⟨h1, ?_, ⟨[Event.open (proc_ns_path pid a), Event.setns (proc_ns_path pid a),
        Event.close (proc_ns_path pid a)] ++ t, ?_⟩⟩
      · simp [Event.open_path, h2]
      · simp [h3]
    · subst hu
      cases hs : env.sys_setns i0 (proc_ns_path pid "user") with
      | ok u =>
        rw [join_namespaces_loop_joined env pid "user" _ i0 hop hs]
        refine ⟨h1, ?_, ⟨[Event.open (proc_ns_path pid "user"),
          Event.setns (proc_ns_path pid "user"),
          Event.close (proc_ns_path pid "user")] ++ t, ?_⟩⟩
        · simp [Event.open_path, h2]
        · simp [h3]
      | error e =>
        rw [join_namespaces_loop_user_warning env pid _ i0 e hop hs]
        refine ⟨h1, ?_, ⟨[Event.open (proc_ns_path pid "user"),
          Event.setns (proc_ns_path pid "user"),
          Event.stderr (user_warning_message env e),
          Event.close (proc_ns_path pid "user")] ++ t, ?_⟩⟩
        · simp [Event.open_path, h2]
        · simp [h3]

/-- A kind that passes adds its events, an `open` of its own path among them, and the
loop goes on with the next kind. -/
theorem join_namespaces_loop_pass_step (env : JoinEnv) (pid : Int) (a : String)
    (rest : List String) (i : Nat) (h : kind_passes env pid i a) :
    ∃ hd, join_namespaces_loop env pid (a :: rest) i =
        ((join_namespaces_loop env pid rest (i + 1)).1,
          hd ++ (join_namespaces_loop env pid rest (i + 1)).2) ∧
      hd.filterMap Event.open_path = [proc_ns_path pid a] := by
  rcases h with hno | ⟨hop, hjoin | hu⟩
  · exact ⟨[Event.open (proc_ns_path pid a)],
      join_namespaces_loop_absent env pid a rest i hno, by simp [Event.open_path]⟩
  · exact ⟨_, join_namespaces_loop_joined env pid a rest i hop hjoin,
      by simp [Event.open_path]⟩
  · subst hu
    cases hs : env.sys_setns i (proc_ns_path pid "user") with
    | ok u =>
      exact ⟨_, join_namespaces_loop_joined env pid "user" rest i hop hs,
        by simp [Event.open_path]⟩
    | error e =>
      exact ⟨_, join_namespaces_loop_user_warning env pid rest i e hop hs,
        by simp [Event.open_path]⟩

/-- When every kind passes, the loop of `join_namespaces` returns 0 and has opened every
kind, in order. -/
theorem join_namespaces_loop_pass (env : JoinEnv) (pid : Int) :
    ∀ (names : List String) (i0 : Nat),
      (∀ j ns, names[j]? = some ns → kind_passes env pid (i0 + j) ns) →
      (join_namespaces_loop env pid names i0).1 = 0 ∧
      (join_namespaces_loop env pid names i0).2.filterMap Event.open_path =
        names.map (proc_ns_path pid) := by
  intro names
  induction names with
  | nil => intro i0 _; simp [join_namespaces_loop]
  | cons a rest ih =>
    intro i0 hpass
    have hrest : ∀ j ns, rest[j]? = some ns → kind_passes env pid (i0 + 1 + j) ns := by
      intro j ns hj
      have := hpass (j + 1) ns (by simpa using hj)
      rwa [show i0 + (j + 1) = i0 + 1 + j by omega] at this
    obtain ⟨h1, h2⟩ := ih (i0 + 1) hrest
    obtain ⟨hd, e, hhd⟩ := join_namespaces_loop_pass_step env pid a rest i0
      (by simpa using hpass 0 a (by simp))
    rw [e]
    exact ⟨h1, by simp [List.filterMap_append, hhd, h2]⟩

/-- When every kind passes and the join of `user` fails, the warning is written. -/
theorem join_namespaces_loop_warning (env : JoinEnv) (pid : Int) (errno : Nat) :
    ∀ (names : List String) (i0 j : Nat),
      (∀ j ns, names[j]? = some ns → kind_passes env pid (i0 + j) ns) →
      names[j]? = some "user" →
      env.sys_open (i0 + j) (proc_ns_path pid "user") = .ok () →
      env.sys_setns (i0 + j) (proc_ns_path pid "user") = .error errno →
      Event.stderr (user_warning_message env errno) ∈
        (join_namespaces_loop env pid names i0).2 := by
  intro names
  induction names with
  | nil => intro i0 j _ hj; simp at hj
  | cons a rest ih =>
    intro i0 j hpass hj hopen hsetns
    cases j with
    | zero =>
      have ha : a = "user" := by simpa using hj
      subst ha
      rw [join_namespaces_loop_user_warning env pid rest i0 errno (by simpa using hopen)
        (by simpa using hsetns)]
      simp
    | succ j =>
      have hrest : ∀ j ns, rest[j]? = some ns → kind_passes env pid (i0 + 1 + j) ns := by
        intro j ns hj
        have := hpass (j + 1) ns (by simpa using hj)
        rwa [show i0 + (j + 1) = i0 + 1 + j by omega] at this
      have hidx : i0 + (j + 1) = i0 + 1 + j := by omega
      have := ih (i0 + 1) j hrest (by simpa using hj) (by rw [← hidx]; exact hopen)
        (by rw [← hidx]; exact hsetns)
      obtain ⟨hd, e, _⟩ := join_namespaces_loop_pass_step env pid a rest i0
        (by simpa using hpass 0 a (by simp))
      rw [e]
      exact List.mem_append_right _ this

/-- A join is only attempted on a link that was opened. -/
theorem join_namespaces_loop_setns_opened (env : JoinEnv) (pid : Int) (p : CStr) :
    ∀ (names : List String) (i0 : Nat),
      Event.setns p ∈ (join_namespaces_loop env pid names i0).2 →
      Event.open p ∈ (join_namespaces_loop env pid names i0).2 := by
  intro names
  induction names with
  | nil => intro i0 h; simp [join_namespaces_loop] at h
  | cons a rest ih =>
    intro i0
    have ih2 := ih (i0 + 1)
    cases hop : env.sys_open i0 (proc_ns_path pid a) with
    | error e =>
      by_cases he : e = ENOENT
      · subst he
        rw [join_namespaces_loop_absent env pid a rest i0 hop]
        intro h
        simp only [List.mem_cons, reduceCtorEq, false_or] at h
        exact List.mem_cons_of_mem _ (ih2 h)
      · simp [join_namespaces_loop, hop, he]
    | ok u =>
      cases hs : env.sys_setns i0 (proc_ns_path pid a) with
      | error e =>
        by_cases hu : a = "user"
        · subst hu
          rw [join_namespaces_loop_user_warning env pid rest i0 e hop hs]
          intro h
          simp only [List.cons_append, List.nil_append, List.mem_cons, reduceCtorEq,
            Event.setns.injEq, false_or] at h
          rcases h with h | h
          · subst h
            simp
          · simp only [List.cons_append, List.nil_append, List.mem_cons]
            exact Or.inr (Or.inr (Or.inr (Or.inr (ih2 h))))
        · rw [join_namespaces_loop_failed env pid a rest i0 e hu hop hs]
          intro h
          simp only [List.mem_cons, reduceCtorEq, Event.setns.injEq, false_or,
            List.mem_singleton, or_false, List.not_mem_nil] at h
          subst h
          simp
      | ok v =>
        rw [join_namespaces_loop_joined env pid a rest i0 hop hs]
        intro h
        simp only [List.cons_append, List.nil_append, List.mem_cons, reduceCtorEq,
          Event.setns.injEq, false_or] at h
        rcases h with h | h
        · subst h
          simp
        · simp only [List.cons_append, List.nil_append, List.mem_cons]
          exact Or.inr (Or.inr (Or.inr (ih2 h)))

/-- C7. `join_namespaces` visits the kinds in the order of `namespaces`
(mnt, uts, ipc, pid, net, user, cgroup). If the run reaches kind number `i`, named `k`
and not `user`, and `setns` fails for it, then `join_namespaces` returns -1, the links
opened are exactly those of kinds 0 to `i` in order (none after `k`), every join was
attempted on one of these links, and the run ends with the failed join of `k`, the
message naming `k`, and the close of its descriptor. -/
theorem join_namespaces_short_circuit (env : JoinEnv) (target_pid : Int) (i : Nat)
    (k : String) (errno : Nat)
    (hk : namespaces[i]? = some k) (huser : k ≠ "user")
    (hbefore : ∀ j ns, j < i → namespaces[j]? = some ns → kind_passes env target_pid j ns)
    (hopen : env.sys_open i (proc_ns_path target_pid k) = .ok ())
    (hsetns : env.sys_setns i (proc_ns_path target_pid k) = .error errno) :
    (join_namespaces env target_pid).1 = -1 ∧
    (join_namespaces env target_pid).2.filterMap Event.open_path =
      (namespaces.take (i + 1)).map (proc_ns_path target_pid) ∧
    (∀ p, Event.setns p ∈ (join_namespaces env target_pid).2 →
      p ∈ (namespaces.take (i + 1)).map (proc_ns_path target_pid)) ∧
    ∃ t, (join_namespaces env target_pid).2 =
      t ++ [Event.open (proc_ns_path target_pid k), Event.setns (proc_ns_path target_pid k),
        Event.stderr (join_failure_message env k errno),
        Event.close (proc_ns_path target_pid k)] := by
  obtain ⟨hlt, hget⟩ := List.getElem?_eq_some.mp hk
  have hsplit : namespaces.take i ++ k :: namespaces.drop (i + 1) = namespaces := by
    rw [← hget, ← List.drop_eq_getElem_cons hlt, List.take_append_drop]
  have hlen : (namespaces.take i).length = i := by
    rw [List.length_take]
    omega
  have hpass : ∀ j ns, (namespaces.take i)[j]? = some ns →
      kind_passes env target_pid (0 + j) ns := by
    intro j ns hj
    rw [List.getElem?_take] at hj
    split at hj
    · rw [Nat.zero_add]
      exact hbefore j ns (by assumption) hj
    · cases hj
  have key := join_namespaces_loop_abort env target_pid k (namespaces.drop (i + 1)) errno
    huser (namespaces.take i) 0 hpass (by rw [hlen, Nat.zero_add]; exact hopen)
    (by rw [hlen, Nat.zero_add]; exact hsetns)
  rw [hsplit] at key
  have htake : namespaces.take (i + 1) = namespaces.take i ++ [k] := by
    rw [List.take_succ, hk]
    rfl
  rw [htake]
  refine ⟨key.1, key.2.1, ?_, key.2.2⟩
  intro p hp
  have hopened := join_namespaces_loop_setns_opened env target_pid p namespaces 0 hp
  have hmem : p ∈ (join_namespaces_loop env target_pid namespaces 0).2.filterMap
      Event.open_path :=
    List.mem_filterMap.mpr ⟨Event.open p, hopened, rfl⟩
  rw [key.2.1] at hmem
  exact hmem

/-- C7, instance of `join_namespaces_short_circuit`: when the join of `net` fails, the
links opened are those of mnt, uts, ipc, pid and net; `user` and `cgroup` are not
attempted. -/
theorem join_namespaces_short_circuit_witness :
    (join_namespaces env_net_fails 5).1 = -1 ∧
    (join_namespaces env_net_fails 5).2.filterMap Event.open_path =
      (namespaces.take (4 + 1)).map (proc_ns_path 5) ∧
    (∀ p, Event.setns p ∈ (join_namespaces env_net_fails 5).2 →
      p ∈ (namespaces.take (4 + 1)).map (proc_ns_path 5)) ∧
    ∃ t, (join_namespaces env_net_fails 5).2 =
      t ++ [Event.open (proc_ns_path 5 "net"), Event.setns (proc_ns_path 5 "net"),
        Event.stderr (join_failure_message env_net_fails "net" 1),
        Event.close (proc_ns_path 5 "net")] :=
  join_namespaces_short_circuit env_net_fails 5 4 "net" 1 (by decide) (by decide)
    (by
      intro j ns hj _
      right
      have h4 : j ≠ 4 := by omega
      simp [env_net_fails, h4])
    rfl rfl

theorem kind_passes_of_absent_or_joined (env : JoinEnv) (pid : Int) (i : Nat) (ns : String)
    (h : kind_absent_or_joined env pid i ns) : kind_passes env pid i ns := by
  rcases h with h | ⟨h1, h2⟩
  · exact Or.inl h
  · exact Or.inr ⟨h1, Or.inl h2⟩

theorem open_mem_of_filterMap (hd : List Event) (p : CStr)
    (h : hd.filterMap Event.open_path = [p]) : Event.open p ∈ hd := by
  have hp : p ∈ hd.filterMap Event.open_path := by rw [h]; simp
  obtain ⟨e, he, hep⟩ := List.mem_filterMap.mp hp
  cases e <;> simp [Event.open_path] at hep
  subst hep
  exact he

/-- C8. If the link of `user` (kind number 5) opens and its join fails, while every other
kind is absent or joins successfully, then `join_namespaces` returns 0, all 7 links are
opened in the order of `namespaces`, the warning is written, and the link of `cgroup`,
the kind after `user`, is opened after the warning. -/
theorem join_namespaces_user_lenient (env : JoinEnv) (target_pid : Int) (errno : Nat)
    (hother : ∀ j ns, namespaces[j]? = some ns → ns ≠ "user" →
      kind_absent_or_joined env target_pid j ns)
    (hopen : env.sys_open 5 (proc_ns_path target_pid "user") = .ok ())
    (hsetns : env.sys_setns 5 (proc_ns_path target_pid "user") = .error errno) :
    (join_namespaces env target_pid).1 = 0 ∧
    (join_namespaces env target_pid).2.filterMap Event.open_path =
      namespaces.map (proc_ns_path target_pid) ∧
    ∃ t1 t2, (join_namespaces env target_pid).2 =
        t1 ++ Event.stderr (user_warning_message env errno) :: t2 ∧
      Event.open (proc_ns_path target_pid "cgroup") ∈ t2 := by
  have h0 := kind_passes_of_absent_or_joined _ _ _ _ (hother 0 "mnt" rfl (by decide))
  have h1 := kind_passes_of_absent_or_joined _ _ _ _ (hother 1 "uts" rfl (by decide))
  have h2 := kind_passes_of_absent_or_joined _ _ _ _ (hother 2 "ipc" rfl (by decide))
  have h3 := kind_passes_of_absent_or_joined _ _ _ _ (hother 3 "pid" rfl (by decide))
  have h4 := kind_passes_of_absent_or_joined _ _ _ _ (hother 4 "net" rfl (by decide))
  have h6 := kind_passes_of_absent_or_joined _ _ _ _ (hother 6 "cgroup" rfl (by decide))
  obtain ⟨d0, e0, f0⟩ := join_namespaces_loop_pass_step env target_pid "mnt"
    ["uts", "ipc", "pid", "net", "user", "cgroup"] 0 h0
  obtain ⟨d1, e1, f1⟩ := join_namespaces_loop_pass_step env target_pid "uts"
    ["ipc", "pid", "net", "user", "cgroup"] 1 h1
  obtain ⟨d2, e2, f2⟩ := join_namespaces_loop_pass_step env target_pid "ipc"
    ["pid", "net", "user", "cgroup"] 2 h2
  obtain ⟨d3, e3, f3⟩ := join_namespaces_loop_pass_step env target_pid "pid"
    ["net", "user", "cgroup"] 3 h3
  obtain ⟨d4, e4, f4⟩ := join_namespaces_loop_pass_step env target_pid "net"
    ["user", "cgroup"] 4 h4
  have e5 := join_namespaces_loop_user_warning env target_pid ["cgroup"] 5 errno hopen hsetns
  obtain ⟨d6, e6, f6⟩ := join_namespaces_loop_pass_step env target_pid "cgroup" [] 6 h6
  have e7 : join_namespaces_loop env target_pid [] 7 = (0, []) := rfl
  have hrun : join_namespaces env target_pid =
      (0, d0 ++ (d1 ++ (d2 ++ (d3 ++ (d4 ++
        ([Event.open (proc_ns_path target_pid "user"),
          Event.setns (proc_ns_path target_pid "user"),
          Event.stderr (user_warning_message env errno),
          Event.close (proc_ns_path target_pid "user")] ++ (d6 ++ []))))))) := by
    unfold join_namespaces namespaces
    rw [e0, e1, e2, e3, e4, e5, e6, e7]
  rw [hrun]
  refine ⟨rfl, ?_, ⟨d0 ++ (d1 ++ (d2 ++ (d3 ++ (d4 ++
    [Event.open (proc_ns_path target_pid "user"),
      Event.setns (proc_ns_path target_pid "user")])))),
    Event.close (proc_ns_path target_pid "user") :: d6, ?_, ?_⟩⟩
  · simp [List.filterMap_append, f0, f1, f2, f3, f4, f6, Event.open_path, namespaces]
  · simp
  · exact List.mem_cons_of_mem _ (open_mem_of_filterMap d6 _ f6)

/-- C8, instance of `join_namespaces_user_lenient`: with the `ipc` link missing and the
join of `user` failing, `join_namespaces` returns 0, writes the warning, and opens the
link of `cgroup` after it. -/
theorem join_namespaces_user_lenient_witness :
    (join_namespaces env_user_fails 5).1 = 0 ∧
    (join_namespaces env_user_fails 5).2.filterMap Event.open_path =
      namespaces.map (proc_ns_path 5) ∧
    ∃ t1 t2, (join_namespaces env_user_fails 5).2 =
        t1 ++ Event.stderr (user_warning_message env_user_fails 1) :: t2 ∧
      Event.open (proc_ns_path 5 "cgroup") ∈ t2 :=
  join_namespaces_user_lenient env_user_fails 5 1
    (by
      intro j ns hj hne
      have hlt : j < 7 := by
        obtain ⟨h, _⟩ := List.getElem?_eq_some.mp hj
        simpa [namespaces] using h
      interval_cases j <;> simp [namespaces] at hj <;> subst hj <;>
        simp [kind_absent_or_joined, env_user_fails] at hne ⊢)
    rfl rfl

/-! ## Cgroup joiner -/

theorem join_cgroups_body_opens (env : JoinEnv) (s : CStr) (i : Nat) (line : List Char) :
    (join_cgroups_body env s i line).filterMap Event.open_path =
      (cgroup_procs_path (cut_at_newline line)).toList := by
  unfold join_cgroups_body
  cases cgroup_procs_path (cut_at_newline line) with
  | none => rfl
  | some p =>
    cases h : env.sys_open i p with
    | error e => simp [h, Event.open_path]
    | ok u => simp [h, Event.open_path]

theorem join_cgroups_body_writes (env : JoinEnv) (s : CStr) (i : Nat) (line : List Char) :
    (join_cgroups_body env s i line).filterMap Event.write_path =
      (opened_path env i (cut_at_newline line)).toList := by
  unfold join_cgroups_body opened_path
  cases cgroup_procs_path (cut_at_newline line) with
  | none => rfl
  | some p =>
    cases h : env.sys_open i p with
    | error e => simp [h, Event.write_path]
    | ok u => simp [h, Event.write_path]

/-- The iteration bound of `join_cgroups` is never reached: any larger bound gives the
same events. -/
theorem join_cgroups_loop_fuel (env : JoinEnv) (s : CStr) :
    ∀ (fuel i : Nat) (stream : List Char), stream.length < fuel →
      join_cgroups_loop env s fuel i stream =
        join_cgroups_loop env s (stream.length + 1) i stream := by
  intro fuel
  induction fuel using Nat.strong_induction_on with
  | _ fuel ih =>
    intro i stream hlt
    cases fuel with
    | zero => simp at hlt
    | succ f =>
      simp only [join_cgroups_loop]
      cases hg : fgets 512 stream with
      | none => rfl
      | some p =>
        obtain ⟨line, rest⟩ := p
        have hr := fgets_rest_length 512 (by decide) stream line rest hg
        simp only []
        rw [ih f (by omega) (i + 1) rest (by omega),
          ih stream.length (by omega) (i + 1) rest (by omega)]

/-- The links that the loop of `join_cgroups` opens are the paths of the entries it
reads, whatever the outcome of each `open` and `write`. -/
theorem join_cgroups_loop_opens (env : JoinEnv) (s : CStr) :
    ∀ (fuel i : Nat) (stream : List Char),
      (join_cgroups_loop env s fuel i stream).filterMap Event.open_path =
        ((fgets_lines fuel stream).map cut_at_newline).filterMap cgroup_procs_path := by
  intro fuel
  induction fuel with
  | zero => intro i stream; rfl
  | succ f ih =>
    intro i stream
    simp only [join_cgroups_loop, fgets_lines]
    cases fgets 512 stream with
    | none => rfl
    | some p =>
      obtain ⟨line, rest⟩ := p
      simp only [List.filterMap_append, join_cgroups_body_opens, ih, List.map_cons,
        List.filterMap_cons]
      cases cgroup_procs_path (cut_at_newline line) <;> simp

/-- The writes that the loop of `join_cgroups` makes are those of the entries whose
`open` succeeded. -/
theorem join_cgroups_loop_writes (env : JoinEnv) (s : CStr) :
    ∀ (fuel i : Nat) (stream : List Char),
      (join_cgroups_loop env s fuel i stream).filterMap Event.write_path =
        (((fgets_lines fuel stream).map cut_at_newline).enumFrom i).filterMap
          (fun p => opened_path env p.1 p.2) := by
  intro fuel
  induction fuel with
  | zero => intro i stream; rfl
  | succ f ih =>
    intro i stream
    simp only [join_cgroups_loop, fgets_lines]
    cases fgets 512 stream with
    | none => rfl
    | some p =>
      obtain ⟨line, rest⟩ := p
      simp only [List.filterMap_append, join_cgroups_body_writes, ih, List.map_cons,
        List.enumFrom_cons, List.filterMap_cons]
      cases opened_path env i (cut_at_newline line) <;> simp

/-- The call `strchr` with the cut at the character found, as a split of the string at
the first occurrence of `c`. -/
theorem strchr_split_eq (c : Char) :
    ∀ s : CStr, strchr_split c s =
      if c ∈ s then
        some (s.takeWhile (fun x => x != c), (s.dropWhile (fun x => x != c)).drop 1)
      else none := by
  intro s
  induction s with
  | nil => simp [strchr_split]
  | cons x xs ih =>
    by_cases hx : x = c
    · subst hx
      simp [strchr_split]
    · have hx2 : ¬ c = x := fun h => hx h.symm
      by_cases hc : c ∈ xs
      · simp [strchr_split, hx, hx2, ih, hc]
      · simp [strchr_split, hx, hx2, ih, hc]

theorem strchr_split_colon (s : CStr) : strchr_split ':' s = spec_split_colon s := by
  rw [strchr_split_eq]
  rfl

/-- The path computed by `join_cgroups` is the spec's path cut to 511 bytes. -/
theorem cgroup_procs_path_eq (line : CStr) :
    cgroup_procs_path line = (spec_procs_path line).map (snprintf 512) := by
  unfold cgroup_procs_path spec_procs_path spec_split_line
  rw [strchr_split_colon]
  cases spec_split_colon line with
  | none => rfl
  | some p =>
    obtain ⟨hid, rest⟩ := p
    simp only [strchr_split_colon]
    cases spec_split_colon rest with
    | none => rfl
    | some q =>
      obtain ⟨subs, path⟩ := q
      by_cases h : subs = []
      · simp [h]
      · simp [h]

theorem cgroup_procs_path_fits (line : CStr) (h : fits_path line) :
    cgroup_procs_path line = spec_procs_path line := by
  rw [cgroup_procs_path_eq]
  cases hp : spec_procs_path line with
  | none => rfl
  | some p =>
    have := h p (by rw [hp]; rfl)
    simp only [Option.map_some', snprintf]
    rw [List.take_of_length_le (by omega)]

theorem spec_split_colon_some (s a b : CStr) (h : spec_split_colon s = some (a, b)) :
    s = a ++ ':' :: b ∧ ':' ∉ a := by
  induction s generalizing a b with
  | nil => simp [spec_split_colon] at h
  | cons x xs ih =>
    by_cases hx : x = ':'
    · subst hx
      simp [spec_split_colon] at h
      obtain ⟨rfl, rfl⟩ := h
      simp
    · have hx2 : ¬ ':' = x := fun h => hx h.symm
      by_cases hc : ':' ∈ xs
      · simp [spec_split_colon, hx, hx2, hc] at h
        obtain ⟨rfl, rfl⟩ := h
        have := ih _ _ (by simp [spec_split_colon, hc]; exact ⟨rfl, rfl⟩)
        constructor
        · simp only [List.cons_append, List.cons.injEq, true_and]
          exact this.1
        · simp only [List.mem_cons, not_or]
          exact ⟨hx2, this.2⟩
      · simp [spec_split_colon, hx2, hc] at h

theorem spec_split_colon_append (a b : CStr) (ha : ':' ∉ a) :
    spec_split_colon (a ++ ':' :: b) = some (a, b) := by
  have hp : ∀ x ∈ a, (fun c => c != ':') x = true := by
    intro x hx
    have : x ≠ ':' := fun e => ha (e ▸ hx)
    simpa using this
  unfold spec_split_colon
  rw [if_pos (by simp), List.takeWhile_append_of_pos hp, List.dropWhile_append_of_pos hp]
  simp

theorem spec_split_line_few_colons (line : CStr) (h : line.count ':' < 2) :
    spec_split_line line = none := by
  unfold spec_split_line
  cases h1 : spec_split_colon line with
  | none => rfl
  | some p =>
    obtain ⟨hid, rest⟩ := p
    simp only []
    cases h2 : spec_split_colon rest with
    | none => rfl
    | some q =>
      obtain ⟨subs, path⟩ := q
      exfalso
      obtain ⟨e1, _⟩ := spec_split_colon_some _ _ _ h1
      obtain ⟨e2, _⟩ := spec_split_colon_some _ _ _ h2
      rw [e1, e2] at h
      simp [List.count_append, List.count_cons] at h
      omega

/-- The text `"%d\n"` of a pid fits the 32-byte buffer `my_pid_str`. -/
theorem my_pid_str_eq (n : Nat) (h : n < 2147483648) :
    snprintf 32 (fmt_d (n : Int) ++ [NL]) = fmt_d (n : Int) ++ [NL] := by
  have e : fmt_d (n : Int) = (Nat.repr n).toList := rfl
  have hl : (Nat.repr n).length ≤ 10 := Nat.repr_length n 10 (by decide) (by omega)
  have hl2 : (Nat.repr n).toList.length ≤ 10 := hl
  unfold snprintf
  rw [List.take_of_length_le]
  rw [e, List.length_append]
  simp only [List.length_singleton]
  omega

/-- On a file of well-formed lines whose paths fit, the loop of `join_cgroups` produces
the spec's events, line by line. -/
theorem join_cgroups_loop_lines (env : JoinEnv) (lines : List CStr) :
    ∀ (fuel i : Nat), lines.length < fuel → (∀ l ∈ lines, fits_line l ∧ fits_path l) →
      join_cgroups_loop env (fmt_d (env.getpid : Int) ++ [NL]) fuel i (file_of_lines lines) =
        spec_join_events env i lines := by
  induction lines with
  | nil =>
    intro fuel i hfuel _
    cases fuel with
    | zero => simp at hfuel
    | succ f => simp [file_of_lines, join_cgroups_loop, fgets, spec_join_events]
  | cons l ls ih =>
    intro fuel i hfuel hfit
    cases fuel with
    | zero => simp at hfuel
    | succ f =>
      obtain ⟨⟨hlen, hnl, hnul⟩, hpath⟩ := hfit l (by simp)
      have hfit2 : ∀ x ∈ ls, fits_line x ∧ fits_path x := fun x hx => hfit x (by simp [hx])
      have hf : ls.length < f := by simpa using hfuel
      have hbody : join_cgroups_body env (fmt_d (env.getpid : Int) ++ [NL]) i (l ++ [NL]) =
          (match spec_procs_path l with
            | none => []
            | some p =>
              match env.sys_open i p with
              | .ok _ => [Event.open p, Event.write p (fmt_d (env.getpid : Int) ++ [NL]),
                  Event.close p]
              | .error _ => [Event.open p]) := by
        unfold join_cgroups_body
        rw [cut_at_newline_line l hnl hnul, cgroup_procs_path_fits l hpath]
        cases spec_procs_path l with
        | none => rfl
        | some p =>
          cases h : env.sys_open i p with
          | error e => simp [h]
          | ok u => simp [h]
      simp only [file_of_lines, join_cgroups_loop, fgets_line l _ hnl hlen, hbody,
        spec_join_events, ih f (i + 1) hf hfit2]

/-- C9 (amended). For a membership file whose lines have at most 510 bytes, no NUL byte,
and a resulting path of at most 511 bytes, `join_cgroups` returns 0 and its events are
those of the spec, line by line: a line is split at its first two colons into
(hierarchy-id, subsystem-list, cgroup-path); a line with fewer than two colons gives no
event; otherwise the file opened is `/sys/fs/cgroup`, cgroup-path, `/cgroup.procs` when
the subsystem-list is empty and `/sys/fs/cgroup/`, subsystem-list, cgroup-path,
`/cgroup.procs` otherwise, and the bytes written are the caller's pid in decimal and a
newline. The hierarchy-id has no influence on the path that the code computes. -/
theorem join_cgroups_lines (env : JoinEnv) (target_pid : Int) :
    (∀ lines : List CStr,
      env.fopen (proc_cgroup_path target_pid) = .ok (file_of_lines lines) →
      (∀ l ∈ lines, fits_line l ∧ fits_path l) →
        join_cgroups env target_pid = (0, spec_join_events env 0 lines)) ∧
    (∀ line : CStr, line.count ':' < 2 → spec_procs_path line = none) ∧
    (∀ hid subs path : CStr, ':' ∉ hid → ':' ∉ subs →
      spec_split_line (hid ++ ':' :: (subs ++ ':' :: path)) = some (hid, subs, path)) ∧
    (∀ hid path : CStr, ':' ∉ hid →
      spec_procs_path (hid ++ ':' :: ':' :: path) =
        some ("/sys/fs/cgroup".toList ++ path ++ "/cgroup.procs".toList)) ∧
    (∀ hid subs path : CStr, ':' ∉ hid → ':' ∉ subs → subs ≠ [] →
      spec_procs_path (hid ++ ':' :: (subs ++ ':' :: path)) =
        some ("/sys/fs/cgroup/".toList ++ subs ++ path ++ "/cgroup.procs".toList)) ∧
    (∀ hid hid2 rest : CStr, ':' ∉ hid → ':' ∉ hid2 →
      cgroup_procs_path (hid ++ ':' :: rest) = cgroup_procs_path (hid2 ++ ':' :: rest)) := by
  have hsplit : ∀ hid subs path : CStr, ':' ∉ hid → ':' ∉ subs →
      spec_split_line (hid ++ ':' :: (subs ++ ':' :: path)) = some (hid, subs, path) := by
    intro hid subs path h1 h2
    unfold spec_split_line
    rw [spec_split_colon_append hid _ h1]
    simp only []
    rw [spec_split_colon_append subs _ h2]
  refine ⟨?_, ?_, hsplit, ?_, ?_, ?_⟩
  · intro lines hopen hfit
    have hfuel : lines.length < (file_of_lines lines).length + 1 := by
      have := file_of_lines_length lines
      omega
    simp only [join_cgroups, hopen, my_pid_str_eq env.getpid env.getpid_lt]
    rw [join_cgroups_loop_lines env lines _ 0 hfuel hfit]
  · intro line h
    unfold spec_procs_path
    rw [spec_split_line_few_colons line h]
  · intro hid path h1
    have := hsplit hid [] path h1 (by simp)
    simp only [List.nil_append] at this
    unfold spec_procs_path
    rw [this]
    simp
  · intro hid subs path h1 h2 h3
    unfold spec_procs_path
    rw [hsplit hid subs path h1 h2]
    simp [h3]
  · intro hid hid2 rest h1 h2
    unfold cgroup_procs_path
    rw [strchr_split_colon, strchr_split_colon, spec_split_colon_append hid _ h1,
      spec_split_colon_append hid2 _ h2]

/-- C9, instance of `join_cgroups_lines`: a unified entry, a legacy entry whose path
holds a further colon, and a line without two colons; the split of the legacy entry;
and two entries that differ only in their hierarchy-id. -/
theorem join_cgroups_lines_witness :
    join_cgroups (env_with_cgroup_file
        (file_of_lines ["0::/a".toList, "1:cpu,cpuacct:/b:c".toList, "bad".toList])) 5 =
      (0, [Event.open "/sys/fs/cgroup/a/cgroup.procs".toList,
        Event.write "/sys/fs/cgroup/a/cgroup.procs".toList "4242\n".toList,
        Event.close "/sys/fs/cgroup/a/cgroup.procs".toList,
        Event.open "/sys/fs/cgroup/cpu,cpuacct/b:c/cgroup.procs".toList,
        Event.write "/sys/fs/cgroup/cpu,cpuacct/b:c/cgroup.procs".toList "4242\n".toList,
        Event.close "/sys/fs/cgroup/cpu,cpuacct/b:c/cgroup.procs".toList]) ∧
    spec_procs_path "bad:line".toList = none ∧
    spec_split_line ("1".toList ++ ':' :: ("cpu,cpuacct".toList ++ ':' :: "/b:c".toList)) =
      some ("1".toList, "cpu,cpuacct".toList, "/b:c".toList) ∧
    spec_procs_path ("0".toList ++ ':' :: ':' :: "/a".toList) =
      some ("/sys/fs/cgroup".toList ++ "/a".toList ++ "/cgroup.procs".toList) ∧
    spec_procs_path ("1".toList ++ ':' :: ("cpu".toList ++ ':' :: "/b".toList)) =
      some ("/sys/fs/cgroup/".toList ++ "cpu".toList ++ "/b".toList ++
        "/cgroup.procs".toList) ∧
    cgroup_procs_path ("3".toList ++ ':' :: "cpu:/b".toList) =
      cgroup_procs_path ("12".toList ++ ':' :: "cpu:/b".toList) :=
  ⟨(join_cgroups_lines (env_with_cgroup_file
      (file_of_lines ["0::/a".toList, "1:cpu,cpuacct:/b:c".toList, "bad".toList])) 5).1
      ["0::/a".toList, "1:cpu,cpuacct:/b:c".toList, "bad".toList] rfl (by decide),
    (join_cgroups_lines (env_with_cgroup_file []) 5).2.1 "bad:line".toList (by decide),
    (join_cgroups_lines (env_with_cgroup_file []) 5).2.2.1 "1".toList "cpu,cpuacct".toList
      "/b:c".toList (by decide) (by decide),
    (join_cgroups_lines (env_with_cgroup_file []) 5).2.2.2.1 "0".toList "/a".toList
      (by decide),
    (join_cgroups_lines (env_with_cgroup_file []) 5).2.2.2.2.1 "1".toList "cpu".toList
      "/b".toList (by decide) (by decide) (by decide),
    (join_cgroups_lines (env_with_cgroup_file []) 5).2.2.2.2.2 "3".toList "12".toList
      "cpu:/b".toList (by decide) (by decide)⟩

set_option maxRecDepth 100000 in
/-- C9, counterexample to the claim as stated: for a line of 488 bytes with
hierarchy-id `0`, an empty subsystem-list and a cgroup-path of 485 bytes, the file that
`join_cgroups` opens is not `/sys/fs/cgroup`, cgroup-path, `/cgroup.procs` but that
text without its last byte. -/
theorem join_cgroups_long_path :
    fits_line long_path_line ∧
    long_path_line = "0".toList ++ ':' :: ':' :: ('/' :: List.replicate 484 'a') ∧
    (join_cgroups (env_with_cgroup_file (file_of_lines [long_path_line])) 5).2.filterMap
        Event.open_path =
      ["/sys/fs/cgroup/".toList ++ List.replicate 484 'a' ++ "/cgroup.proc".toList] ∧
    Event.open ("/sys/fs/cgroup".toList ++ ('/' :: List.replicate 484 'a') ++
        "/cgroup.procs".toList) ∉
      (join_cgroups (env_with_cgroup_file (file_of_lines [long_path_line])) 5).2 := by
  decide

/-- A path is computed for an entry exactly when the entry has at least two colons. -/
theorem cgroup_procs_path_isSome (entry : CStr) :
    (cgroup_procs_path entry).isSome ↔ 2 ≤ entry.count ':' := by
  rw [cgroup_procs_path_eq, Option.isSome_map']
  constructor
  · intro h
    by_contra hlt
    have hnone : spec_procs_path entry = none := by
      unfold spec_procs_path
      rw [spec_split_line_few_colons entry (by omega)]
    rw [hnone] at h
    exact absurd h (by simp)
  · intro h
    have hmem : ':' ∈ entry := List.count_pos_iff.mp (by omega)
    have h1 : spec_split_colon entry = some (entry.takeWhile (fun c => c != ':'),
        (entry.dropWhile (fun c => c != ':')).drop 1) := by
      unfold spec_split_colon
      rw [if_pos hmem]
    obtain ⟨e1, ha⟩ := spec_split_colon_some _ _ _ h1
    have hcount : 1 ≤ ((entry.dropWhile (fun c => c != ':')).drop 1).count ':' := by
      have h0 : (entry.takeWhile (fun c => c != ':')).count ':' = 0 :=
        List.count_eq_zero.mpr ha
      rw [e1, List.count_append, List.count_cons, h0] at h
      simp only [beq_self_eq_true, if_true] at h
      omega
    have hmem2 : ':' ∈ (entry.dropWhile (fun c => c != ':')).drop 1 :=
      List.count_pos_iff.mp (by omega)
    unfold spec_procs_path spec_split_line
    rw [h1]
    simp only [spec_split_colon, if_pos hmem2]
    split <;> simp

/-- C10. `join_cgroups` is best-effort. When the membership file of the target opens,
it returns 0 for every outcome of the `open` and `write` calls on the `cgroup.procs`
files; the files it tries to open are the paths of all well-formed entries of the
membership file (those with at least two colons), in order, whatever failed before; and
it writes to every one of them whose `open` succeeded. It returns -1 exactly when the membership file cannot be
opened. -/
theorem join_cgroups_best_effort (env : JoinEnv) (target_pid : Int) :
    (∀ content, env.fopen (proc_cgroup_path target_pid) = .ok content →
      (join_cgroups env target_pid).1 = 0 ∧
      (join_cgroups env target_pid).2.filterMap Event.open_path =
        (file_entries content).filterMap cgroup_procs_path ∧
      (join_cgroups env target_pid).2.filterMap Event.write_path =
        ((file_entries content).enumFrom 0).filterMap (fun p => opened_path env p.1 p.2)) ∧
    (∀ entry : CStr, (cgroup_procs_path entry).isSome ↔ 2 ≤ entry.count ':') ∧
    ((join_cgroups env target_pid).1 = -1 ↔
      ∃ e, env.fopen (proc_cgroup_path target_pid) = .error e) := by
  refine ⟨?_, cgroup_procs_path_isSome, ?_⟩
  · intro content hopen
    have e : join_cgroups env target_pid =
        (0, join_cgroups_loop env (snprintf 32 (fmt_d (env.getpid : Int) ++ [NL]))
          (content.length + 1) 0 content) := by
      simp only [join_cgroups, hopen]
    rw [e]
    exact ⟨rfl, join_cgroups_loop_opens env _ _ 0 content,
      join_cgroups_loop_writes env _ _ 0 content⟩
  · cases hopen : env.fopen (proc_cgroup_path target_pid) with
    | error e => simp [join_cgroups, hopen]
    | ok content => simp [join_cgroups, hopen]

/-- C10, instance of `join_cgroups_best_effort`: with a failing `open` at the first
entry, a failing `write` at the second and a malformed third line, `join_cgroups`
returns 0 and still tries to open the files of the first, second and fourth entries. -/
theorem join_cgroups_best_effort_witness :
    (join_cgroups env_partial_failures 5).1 = 0 ∧
    (join_cgroups env_partial_failures 5).2.filterMap Event.open_path =
      ["/sys/fs/cgroup/cpu/a/cgroup.procs".toList,
        "/sys/fs/cgroup/memory/b/cgroup.procs".toList,
        "/sys/fs/cgroup/c/cgroup.procs".toList] ∧
    (join_cgroups env_partial_failures 5).2.filterMap Event.write_path =
      ["/sys/fs/cgroup/memory/b/cgroup.procs".toList,
        "/sys/fs/cgroup/c/cgroup.procs".toList] := by
  have h := (join_cgroups_best_effort env_partial_failures 5).1
    "2:cpu:/a\n1:memory:/b\nbad\n0::/c\n".toList rfl
  refine ⟨h.1, ?_, ?_⟩
  · rw [h.2.1]; decide
  · rw [h.2.2]; decide


end CgnsRun
